import Mathlib

/-!
Shallow embedding of `src/dreammaker/objtree.rs` — the object-tree
construction and resolution engine of the SpacemanDMM DreamMaker front end —
together with proofs settling claims C1–C10 about it.

Modelling conventions:
* `NodeIndex` is a `Nat` indexing into an arena list of nodes
  (`ObjectTree.graph_nodes`); petgraph edges are a list of
  `(source, target)` pairs.  petgraph iterates a node's outgoing
  neighbors most-recently-added first, which the neighbor helpers mirror.
* `LinkedHashMap` is an insertion-ordered association list with unique keys;
  `BTreeMap` is a key-sorted association list (`btreeInsert` keeps it sorted).
* Rust `&mut` mutation becomes explicit state passing: every mutating
  operation returns the updated tree, and fallible operations additionally
  return an `Except DMError` result (mutations performed before an error
  are kept, matching in-place mutation in the source).
* `usize` is `Nat`; `usize::MAX` is `2 ^ 64 - 1` (64-bit host); the only
  subtraction (`proc.value.len() - 1`) is guarded by non-emptiness in the
  source, which claim C9 is about.
* Loops that walk the `parent_type` chain (`is_subtype_of`, `get_proc`,
  `visit_parent_types`) can diverge in Rust on a cyclic chain, so they take
  explicit fuel; every theorem about them holds for all sufficient fuel.
-/

namespace ObjTree

/-- Locations (`Location` in the crate root) are produced by the lexer,
outside this module; only storage and equality matter here, so they are
modelled as plain naturals (`Default::default()` is `0`). -/
abbrev Location := Nat

/-- `DMError::new(location, desc)`: a diagnostic with its source location. -/
structure DMError where
  location : Location
  desc : String
deriving DecidableEq, Repr

/-- The shape of `Constant` (from `super::constants`) that this module
inspects: string constants, prefab (`Pop { path, vars }`) constants, and a
catch-all for every other variant carrying its `Display` rendering. -/
inductive Constant where
  | str (s : String)
  | prefab (path : List String) (vars : List (String × Constant))
  | other (rendered : String)

/-- Modelled from the spec: `Display for Constant` lives in the external
constants module (only error/location reporting consumes it); no claim
depends on the exact rendering, so it is modelled as a total rendering. -/
def Constant.display : Constant → String
  | .str s => s
  | .prefab _ _ => "prefab"
  | .other r => r

/-- Modelled from the spec: expression ASTs and `Expression::simple_evaluate`
live in the external AST / constant-evaluator modules ("evaluate this
expression, in the context of this location, to a constant value or an
error"); this core only consumes the evaluation outcome, so an expression is
modelled by that outcome. -/
structure Expression where
  simple_evaluate : Location → Except DMError Constant

/-- Modelled from the spec: statement ASTs are opaque payloads here. -/
abbrev Statement := Nat

/-- Modelled from the spec: parameter ASTs are opaque payloads here. -/
abbrev Parameter := Nat

/-- `DocCollection`: accumulated documentation blocks; opaque payload here,
with `extend` as list append. -/
abbrev DocCollection := List String

/-- `VarType`: a variable's static type-path annotation plus flags. -/
structure VarType where
  is_static : Bool
  is_const : Bool
  is_tmp : Bool
  type_path : List String

/-- Modelled from the spec: `VarSuffix` (array-dimension suffixes on variable
declarations) is defined in the external AST module.  Only its two effects
are consumed here: folding into the declared type (`VarType::suffix`) and
producing an implied initializer (`into_initializer`); both are carried
abstractly. -/
structure VarSuffix where
  suffixVarType : VarType → VarType
  into_initializer : Option Expression

/-- `VarDeclaration`: the record attached by the declaring occurrence. -/
structure VarDeclaration where
  var_type : VarType
  location : Location

/-- `VarValue`: the value record of a variable slot. -/
structure VarValue where
  location : Location
  expression : Option Expression
  constant : Option Constant
  being_evaluated : Bool
  docs : DocCollection

/-- `TypeVar`: one variable slot (value plus optional declaration). -/
structure TypeVar where
  value : VarValue
  declaration : Option VarDeclaration

/-- `ProcDeclaration`: location plus whether declared as `verb`. -/
structure ProcDeclaration where
  location : Location
  is_verb : Bool
deriving DecidableEq, Repr

/-- `Code`: a procedure body variant. -/
inductive Code where
  | present (statements : List Statement)
  | invalid (err : DMError)
  | builtin
  | disabled
deriving DecidableEq, Repr

/-- `ProcValue`: one textual (re)declaration of a procedure. -/
structure ProcValue where
  location : Location
  parameters : List Parameter
  docs : DocCollection
  code : Code
deriving DecidableEq, Repr

/-- `TypeProc`: the ordered override list for one proc name, plus the
optional declaration record (`#[derive(Default)]`: empty list, no
declaration). -/
structure TypeProc where
  value : List ProcValue
  declaration : Option ProcDeclaration
deriving DecidableEq, Repr

/-- `BAD_NODE_INDEX`: `usize::MAX` on a 64-bit host, the "no parent type
assigned" sentinel. -/
def BAD_NODE_INDEX : Nat := 2 ^ 64 - 1

/-- `Type` (renamed: `Type` is a Lean keyword): one node of the object
tree. -/
structure Type' where
  name : String
  path : String
  location : Location
  location_specificity : Nat
  vars : List (String × TypeVar)
  procs : List (String × TypeProc)
  parent_type : Nat
  docs : DocCollection

/-- `Type::parent_type()`: the raw field, with the sentinel mapped to
`none`. -/
def Type'.parent_typeOpt (n : Type') : Option Nat :=
  if n.parent_type = BAD_NODE_INDEX then none else some n.parent_type

/-- `Type::is_root()`: the root node is the one with the empty path. -/
def Type'.is_root (n : Type') : Bool := n.path = ""

-- ----------------------------------------------------------------------------
-- Association-list models of `LinkedHashMap` and `BTreeMap`

/-- Key lookup in an association list (unique keys), used for both
`LinkedHashMap::get` and `BTreeMap::get`. -/
def assocGet {α : Type} (k : String) : List (String × α) → Option α
  | [] => none
  | (k', v) :: rest => if k' = k then some v else assocGet k rest

/-- `LinkedHashMap::entry(k).or_insert_with(v)`: keep the existing entry in
place if present, otherwise append the new entry at the end. -/
def lhmEntryOrInsert {α : Type} (m : List (String × α)) (k : String) (v : α) :
    List (String × α) :=
  match assocGet k m with
  | some _ => m
  | none => m ++ [(k, v)]

/-- Updating an existing entry in place through a `&mut` reference. -/
def lhmUpdate {α : Type} (k : String) (f : α → α) : List (String × α) → List (String × α)
  | [] => []
  | (k', v) :: rest => if k' = k then (k', f v) :: rest else (k', v) :: lhmUpdate k f rest

/-- `LinkedHashMap::entry(k).or_insert_with(default)` followed by mutating
the entry to `v`: replace in place if present, otherwise append. -/
def lhmInsertOrReplace {α : Type} (k : String) (v : α) : List (String × α) → List (String × α)
  | [] => [(k, v)]
  | (k', v') :: rest =>
    if k' = k then (k', v) :: rest else (k', v') :: lhmInsertOrReplace k v rest

/-- Lexicographic comparison of character lists: the order `BTreeMap` keys
are sorted by (paths here are ASCII, where this agrees with Rust's byte-wise
`Ord for String`). -/
def charListLt : List Char → List Char → Bool
  | [], [] => false
  | [], _ :: _ => true
  | _ :: _, [] => false
  | a :: as, b :: bs =>
    if a.toNat < b.toNat then true
    else if b.toNat < a.toNat then false
    else charListLt as bs

/-- Lexicographic order on strings. -/
def strLt (a b : String) : Bool := charListLt a.data b.data

/-- `BTreeMap::insert`: keep the association list sorted by key, replacing
an existing entry with the same key. -/
def btreeInsert {α : Type} (k : String) (v : α) : List (String × α) → List (String × α)
  | [] => [(k, v)]
  | (k', v') :: rest =>
    if k = k' then (k, v) :: rest
    else if strLt k k' then (k, v) :: (k', v') :: rest
    else (k', v') :: btreeInsert k v rest

/-- In-place update of the element at one index of an arena list. -/
def listModify {α : Type} (f : α → α) : Nat → List α → List α
  | _, [] => []
  | 0, a :: as => f a :: as
  | n + 1, a :: as => a :: listModify f n as

-- ----------------------------------------------------------------------------
-- The object tree itself

/-- `ObjectTree { graph, types }`: arena of nodes, edge list (lexical
parent → child), and the path index. -/
structure ObjectTree where
  graph_nodes : List Type'
  graph_edges : List (Nat × Nat)
  types : List (String × Nat)

/-- `graph.node_weight(i)`. -/
def ObjectTree.node (t : ObjectTree) (i : Nat) : Option Type' :=
  t.graph_nodes.get? i

/-- Rewrite the node at index `i` through a `&mut` reference. -/
def ObjectTree.updateNode (t : ObjectTree) (i : Nat) (f : Type' → Type') : ObjectTree :=
  { t with graph_nodes := listModify f i t.graph_nodes }

/-- `Default::default()` for the tree: one root node (empty name and path,
default location, specificity 0, sentinel parent). -/
def ObjectTree.default : ObjectTree :=
  { graph_nodes := [{ name := "", path := "", location := 0, location_specificity := 0,
                      vars := [], procs := [], parent_type := BAD_NODE_INDEX, docs := [] }],
    graph_edges := [], types := [] }

/-- `ObjectTree::find(path)` (as a node index). -/
def ObjectTree.find (t : ObjectTree) (path : String) : Option Nat :=
  assocGet path t.types

/-- `graph.neighbors(i)` / `graph.edges(i)` targets: outgoing neighbors,
iterated most-recently-added first as petgraph does. -/
def ObjectTree.neighbors_out (t : ObjectTree) (i : Nat) : List Nat :=
  ((t.graph_edges.filter (fun e => e.1 = i)).map (fun e => e.2)).reverse

/-- The first outgoing neighbor of `parent` whose node is named `child`
(the search loop shared by `subtype_or_add`, `TypeRef::child` and
`type_by_path_approx`). -/
def ObjectTree.find_neighbor (t : ObjectTree) (parent : Nat) (child : String) : Option Nat :=
  (t.neighbors_out parent).find? fun i =>
    match t.node i with
    | some n => n.name = child
    | none => false

/-- `ObjectTree::subtype_or_add`: find a same-named child and update its
location when the new specificity is strictly smaller, or create, link and
index a new child node. -/
def ObjectTree.subtype_or_add (t : ObjectTree) (location : Location) (parent : Nat)
    (child : String) (len : Nat) : ObjectTree × Nat :=
  match t.find_neighbor parent child with
  | some target =>
    (t.updateNode target (fun node =>
      if node.location_specificity > len then
        { node with location_specificity := len, location := location }
      else node), target)
  | none =>
    let parentPath := match t.node parent with
      | some n => n.path
      | none => ""   -- the source unwraps here; parents are always valid nodes
    let path := parentPath ++ "/" ++ child
    let idx := t.graph_nodes.length
    ({ graph_nodes := t.graph_nodes ++
        [{ name := child, path := path, vars := [], procs := [], location := location,
           location_specificity := len, parent_type := BAD_NODE_INDEX, docs := [] }],
       graph_edges := t.graph_edges ++ [(parent, idx)],
       types := btreeInsert path idx t.types }, idx)

/-- `is_var_decl`. -/
def is_var_decl (s : String) : Bool := s = "var"

/-- `is_proc_decl`. -/
def is_proc_decl (s : String) : Bool := s = "proc" || s = "verb"

/-- `is_decl`. -/
def is_decl (s : String) : Bool := is_var_decl s || is_proc_decl s

/-- The `for each in path` loop of `get_from_path`: create/reuse a child for
the pending segment, stop as soon as a declaration keyword appears, and hand
back the unconsumed remainder of the iterator. -/
def ObjectTree.get_from_path_loop (t : ObjectTree) (location : Location) (len : Nat)
    (current : Nat) (last : String) :
    List String → ObjectTree × Nat × String × List String
  | [] => (t, current, last, [])
  | each :: rest =>
    let sa := t.subtype_or_add location current last len
    if is_decl each then (sa.1, sa.2, each, rest)
    else sa.1.get_from_path_loop location len sa.2 each rest

/-- `ObjectTree::get_from_path`: walk the segment sequence from the root,
returning the parent node, the terminal segment, and the unconsumed rest of
the segment iterator. -/
def ObjectTree.get_from_path (t : ObjectTree) (location : Location) (path : List String)
    (len : Nat) : ObjectTree × Except DMError (Nat × String × List String) :=
  match path with
  | [] => (t, .error ⟨location, "cannot register root path"⟩)
  | last :: rest =>
    if is_decl last then (t, .ok (0, last, rest))
    else
      let r := t.get_from_path_loop location len 0 last rest
      (r.1, .ok (r.2.1, r.2.2.1, r.2.2.2))

-- ----------------------------------------------------------------------------
-- Variable and procedure registration

/-- The `while prev == "global" || ...` qualifier loop of `register_var`:
consume leading qualifier segments, or report `none` for a header-only
block (`var/const{}`), mirroring the early `return Ok(None)`. -/
def var_quals (is_static is_const is_tmp : Bool) (prev : String) :
    List String → Option (Bool × Bool × Bool × String × List String)
  | [] =>
    if prev = "global" || prev = "static" || prev = "tmp" || prev = "const" then none
    else some (is_static, is_const, is_tmp, prev, [])
  | name :: rest' =>
    if prev = "global" || prev = "static" || prev = "tmp" || prev = "const" then
      var_quals (is_static || prev = "global" || prev = "static")
        (is_const || prev = "const") (is_tmp || prev = "tmp") name rest'
    else
      some (is_static, is_const, is_tmp, prev, name :: rest')

/-- The `for each in rest { type_path.push(prev); prev = each }` loop of
`register_var`: everything before the final segment is the declared
type path, the final segment is the variable name. -/
def split_type_path (prev : String) : List String → List String × String
  | [] => ([], prev)
  | each :: rest =>
    let r := split_type_path each rest
    (prev :: r.1, r.2)

/-- The tail of `register_var` after header parsing: build the `VarType`,
apply the suffix, and `entry(name).or_insert_with(..)` the slot.  Returns
the key of the slot the source returns a `&mut` reference to. -/
def ObjectTree.register_var_finish (t : ObjectTree) (location : Location) (parent : Nat)
    (is_declaration is_static is_const is_tmp : Bool) (prev : String) (rest : List String)
    (comment : DocCollection) (suffix : VarSuffix) :
    ObjectTree × Except DMError (Option String) :=
  let sp := split_type_path prev rest
  let var_type := suffix.suffixVarType
    { is_static := is_static, is_const := is_const, is_tmp := is_tmp, type_path := sp.1 }
  let slot : TypeVar :=
    { value := { location := location, expression := suffix.into_initializer,
                 constant := none, being_evaluated := false, docs := comment },
      declaration := if is_declaration then
          some { var_type := var_type, location := location }
        else none }
  (t.updateNode parent (fun node =>
    { node with vars := lhmEntryOrInsert node.vars sp.2 slot }), .ok (some sp.2))

/-- `ObjectTree::register_var`: parse the keyword/qualifier header, then
register (or find) the named slot under `parent`. -/
def ObjectTree.register_var (t : ObjectTree) (location : Location) (parent : Nat)
    (prev : String) (rest : List String) (comment : DocCollection) (suffix : VarSuffix) :
    ObjectTree × Except DMError (Option String) :=
  if is_var_decl prev then
    match rest with
    | [] => (t, .ok none)   -- var{} block, children will be real vars
    | p :: r =>
      match var_quals false false false p r with
      | none => (t, .ok none)   -- var/const{} block, children will be real vars
      | some (is_static, is_const, is_tmp, prev', rest') =>
        t.register_var_finish location parent true is_static is_const is_tmp prev' rest'
          comment suffix
  else if is_proc_decl prev then
    (t, .error ⟨location, "proc looks like a var"⟩)
  else
    t.register_var_finish location parent false false false false prev rest comment suffix

/-- The key `register_var` registers (or finds) for a given header, used to
state claims about the slot it hands back; `none` for the header-only and
error cases. -/
def register_var_key (prev : String) (rest : List String) : Option String :=
  if is_var_decl prev then
    match rest with
    | [] => none
    | p :: r =>
      match var_quals false false false p r with
      | none => none
      | some (_, _, _, prev', rest') => some (split_type_path prev' rest').2
  else if is_proc_decl prev then none
  else some (split_type_path prev rest).2

/-- `ObjectTree::register_proc`: `entry(name).or_insert_with(Default)`, set
the declaration only if not already set, and push a new `ProcValue`;
returns the new entry's index. -/
def ObjectTree.register_proc (t : ObjectTree) (location : Location) (parent : Nat)
    (name : String) (is_verb : Option Bool) (parameters : List Parameter) (code : Code) :
    ObjectTree × Except DMError Nat :=
  match t.node parent with
  | none => (t, .ok 0)   -- the source unwraps here; parents are always valid nodes
  | some node =>
    let proc0 := (assocGet name node.procs).getD (⟨[], none⟩ : TypeProc)
    let proc1 := if proc0.declaration = none then
        { proc0 with declaration := is_verb.map fun v => { location := location, is_verb := v } }
      else proc0
    let len := proc1.value.length
    let newValue : ProcValue :=
      { location := location, parameters := parameters, docs := [], code := code }
    let proc2 := { proc1 with value := proc1.value ++ [newValue] }
    (t.updateNode parent (fun n => { n with procs := lhmInsertOrReplace name proc2 n.procs }),
     .ok len)

-- ----------------------------------------------------------------------------
-- The three public builder entry points

/-- `ObjectTree::add_entry`: an entry which may be anything depending on the
path. -/
def ObjectTree.add_entry (t : ObjectTree) (location : Location) (path : List String)
    (len : Nat) (comment : DocCollection) (suffix : VarSuffix) :
    ObjectTree × Except DMError Unit :=
  match t.get_from_path location path len with
  | (t1, .error e) => (t1, .error e)
  | (t1, .ok (parent, child, rest)) =>
    if is_var_decl child then
      match t1.register_var location parent "var" rest comment suffix with
      | (t2, .error e) => (t2, .error e)
      | (t2, .ok _) => (t2, .ok ())
    else if is_proc_decl child then
      (t1, .ok ())   -- proc{} block, children will be procs
    else
      let sa := t1.subtype_or_add location parent child len
      (sa.1.updateNode sa.2 (fun n => { n with docs := n.docs ++ comment }), .ok ())

/-- `ObjectTree::add_var`: an entry which is definitely a var because a value
is specified; overwrites the slot's `location` and `expression` through the
`&mut` reference `register_var` returns. -/
def ObjectTree.add_var (t : ObjectTree) (location : Location) (path : List String)
    (len : Nat) (expr : Expression) (comment : DocCollection) (suffix : VarSuffix) :
    ObjectTree × Except DMError Unit :=
  match t.get_from_path location path len with
  | (t1, .error e) => (t1, .error e)
  | (t1, .ok (parent, initial, rest)) =>
    match t1.register_var location parent initial rest comment suffix with
    | (t2, .error e) => (t2, .error e)
    | (t2, .ok none) => (t2, .error ⟨location, "var must have a name"⟩)
    | (t2, .ok (some key)) =>
      (t2.updateNode parent (fun n =>
        { n with vars := lhmUpdate key (fun tv =>
            { tv with value := { tv.value with
                location := location,
                expression := some expr } }) n.vars }), .ok ())

/-- `ObjectTree::add_proc`: an entry which is definitely a proc because an
argument list is specified. -/
def ObjectTree.add_proc (t : ObjectTree) (location : Location) (path : List String)
    (len : Nat) (parameters : List Parameter) (code : Code) :
    ObjectTree × Except DMError Nat :=
  match t.get_from_path location path len with
  | (t1, .error e) => (t1, .error e)
  | (t1, .ok (parent, pname, rest)) =>
    if is_proc_decl pname then
      match rest with
      | [] => (t1, .error ⟨location, "proc must have a name"⟩)
      | proc_name :: rest2 =>
        match rest2 with
        | other :: _ =>
          (t1, .error ⟨location,
            "proc name must be a single identifier (spurious \"" ++ other ++ "\")"⟩)
        | [] =>
          t1.register_proc location parent proc_name (some (pname = "verb")) parameters code
    else if is_var_decl pname then
      (t1, .error ⟨location, "var looks like a proc"⟩)
    else
      match rest with
      | other :: _ =>
        (t1, .error ⟨location,
          "proc name must be a single identifier (spurious \"" ++ other ++ "\")"⟩)
      | [] => t1.register_proc location parent pname none parameters code

-- ----------------------------------------------------------------------------
-- Finalization: parent-type assignment

/-- Index (in characters; registered paths are ASCII) of the last occurrence
of `c`, mirroring `str::rfind` on such strings. -/
def lastIdxOf (c : Char) : List Char → Option Nat
  | [] => none
  | x :: xs =>
    match lastIdxOf c xs with
    | some i => some (i + 1)
    | none => if x = c then some 0 else none

/-- `path.rfind('/')` for the slash-delimited paths stored in the index. -/
def strRfindSlash (s : String) : Option Nat := lastIdxOf '/' s.data

/-- `&path[..idx]` for such paths. -/
def strTake (s : String) (n : Nat) : String := ⟨s.data.take n⟩

/-- The `match path.rfind('/').unwrap() { 0 => "/datum", idx => &path[..idx] }`
default: the lexical parent path, or `/datum` for a top-level path (the
source unwraps: registered paths always contain a slash). -/
def lexicalParent (path : String) : String :=
  match strRfindSlash path with
  | some 0 => "/datum"
  | some i => strTake path i
  | none => "/datum"

/-- The `parent_type`-variable override step of `assign_parent_types`: the
error location moves to the variable; a syntactic expression, if any, is
evaluated and a string constant or an override-free prefab constant
replaces the default parent path, while any other outcome registers an
error and keeps the default.  Returns the target parent path, the location
later errors are attributed to, and the registered errors. -/
def apt_override (base : String) (tv : TypeVar) : String × Location × List DMError :=
  let location := tv.value.location
  match tv.value.expression with
  | none => (base, location, [])
  | some expr =>
    match expr.simple_evaluate location with
    | .ok (.str s) => (s, location, [])
    | .ok (.prefab p pvars) =>
      if pvars.isEmpty then
        (p.foldl (fun acc piece => acc ++ "/" ++ piece) "", location, [])
      else
        (base, location,
         [⟨location, "bad parent_type: " ++ (Constant.prefab p pvars).display⟩])
    | .ok c => (base, location, [⟨location, "bad parent_type: " ++ c.display⟩])
    | .error e => (base, location, [e])

/-- The parent-path selection step of `assign_parent_types` for a non-root,
non-`/datum` path: hardcoded built-ins first, otherwise the lexical default
possibly overridden by an evaluated `parent_type` variable. -/
def apt_choose (path : String) (node : Type') : String × Location × List DMError :=
  if path = "/atom" then ("/datum", node.location, [])
  else if path = "/turf" ∨ path = "/area" then ("/atom", node.location, [])
  else if path = "/obj" ∨ path = "/mob" then ("/atom/movable", node.location, [])
  else
    match assocGet "parent_type" node.vars with
    | none => (lexicalParent path, node.location, [])
    | some tv => apt_override (lexicalParent path) tv

/-- The full per-type parent computation of `assign_parent_types`: the
chosen parent path is looked up in the path index, falling back to the root
with a "bad parent type" error when absent; `/datum`'s parent is the root
directly. -/
def apt_idx (types : List (String × Nat)) (path : String) (node : Type') :
    Nat × List DMError :=
  if path = "/datum" then (0, [])
  else
    let ch := apt_choose path node
    match assocGet ch.1 types with
    | some i => (i, ch.2.2)
    | none =>
      (0, ch.2.2 ++ [⟨ch.2.1, "bad parent type for " ++ path ++ ": " ++ ch.1⟩])

/-- One iteration of the `for (path, &type_idx) in self.types.iter()` loop of
`assign_parent_types`: compute the parent index and store it on the node
(the source unwraps the node lookup; index entries always denote valid
nodes). -/
def apt_step (acc : ObjectTree × List DMError) (pr : String × Nat) :
    ObjectTree × List DMError :=
  match acc.1.node pr.2 with
  | none => acc
  | some node =>
    let r := apt_idx acc.1.types pr.1 node
    (acc.1.updateNode pr.2 (fun n => { n with parent_type := r.1 }), acc.2 ++ r.2)

/-- `ObjectTree::assign_parent_types`, with the `Context` diagnostics sink
modelled as the returned error list (the `BTreeMap` iteration order is the
key-sorted order of `types`). -/
def ObjectTree.assign_parent_types (t : ObjectTree) : ObjectTree × List DMError :=
  t.types.foldl apt_step (t, [])

-- ----------------------------------------------------------------------------
-- Navigation

/-- `TypeRef::parent_type()`: the semantic parent handle, present only when
the stored index denotes a node (the sentinel never does). -/
def ObjectTree.parentTypeOpt (t : ObjectTree) (i : Nat) : Option Nat :=
  match t.node i with
  | none => none
  | some ty =>
    match t.node ty.parent_type with
    | none => none
    | some _ => some ty.parent_type

/-- `TypeRef::is_subtype_of`: walk the semantic-parent chain from `i`
looking for `p` (pointer equality in the source is index equality in one
tree).  The Rust loop can diverge on a cyclic chain, hence the fuel. -/
def ObjectTree.is_subtype_of (t : ObjectTree) : Nat → Nat → Nat → Bool
  | 0, _, _ => false
  | fuel + 1, i, p =>
    if i = p then true
    else
      match t.parentTypeOpt i with
      | none => false
      | some j => t.is_subtype_of fuel j p

/-- `ProcRef`: a type handle, a proc name, and the index into that type's
override list (the borrowed list itself is recovered from the tree). -/
structure ProcRef where
  ty : Nat
  name : String
  idx : Nat
deriving DecidableEq, Repr

/-- `TypeRef::get_proc`: walk the semantic-parent chain and anchor at the
last entry of the nearest ancestor's override list for `name`.  Fuel guards
against cyclic chains, as for `is_subtype_of`. -/
def ObjectTree.get_proc (t : ObjectTree) : Nat → Nat → String → Option ProcRef
  | 0, _, _ => none
  | fuel + 1, i, name =>
    match t.node i with
    | none => none
    | some ty =>
      match assocGet name ty.procs with
      | some proc => some ⟨i, name, proc.value.length - 1⟩
      | none =>
        match t.parentTypeOpt i with
        | none => none
        | some j => t.get_proc fuel j name

/-- `ProcRef::parent_proc`: the previous entry of the same override list, or
`get_proc` on the semantic parent type for entry 0. -/
def ObjectTree.parent_proc (t : ObjectTree) (fuel : Nat) (p : ProcRef) : Option ProcRef :=
  match p.idx with
  | i + 1 => some ⟨p.ty, p.name, i⟩
  | 0 =>
    match t.parentTypeOpt p.ty with
    | none => none
    | some j => t.get_proc fuel j p.name

/-- `ProcRef::get`: the `ProcValue` the reference denotes (`Option` stands
in for the source's panicking index). -/
def ObjectTree.procRefVal (t : ObjectTree) (p : ProcRef) : Option ProcValue :=
  match t.node p.ty with
  | none => none
  | some nd =>
    match assocGet p.name nd.procs with
    | none => none
    | some tp => tp.value.get? p.idx

/-- The segment loop of `ObjectTree::type_by_path_approx`, with its
`first`-segment special case for `list`. -/
def ObjectTree.type_by_path_go (t : ObjectTree) : Nat → Bool → List String → Bool × Nat
  | current, _, [] => (true, current)
  | current, first, each :: rest =>
    match t.find_neighbor current each with
    | some target =>
      if each = "list" && first then (true, target)   -- any lookup under list/ is list/
      else t.type_by_path_go target false rest
    | none => (false, current)

/-- `ObjectTree::type_by_path_approx`. -/
def ObjectTree.type_by_path_approx (t : ObjectTree) (path : List String) : Bool × Nat :=
  t.type_by_path_go 0 true path

/-- `ObjectTree::type_by_path`. -/
def ObjectTree.type_by_path (t : ObjectTree) (path : List String) : Option Nat :=
  let r := t.type_by_path_approx path
  if r.1 then some r.2 else none

-- ----------------------------------------------------------------------------
-- Trees built through the public builder API

/-- One call to a public mutation entry point. -/
inductive BuilderOp where
  | entry (location : Location) (path : List String) (len : Nat)
      (comment : DocCollection) (suffix : VarSuffix)
  | var (location : Location) (path : List String) (len : Nat)
      (expr : Expression) (comment : DocCollection) (suffix : VarSuffix)
  | proc (location : Location) (path : List String) (len : Nat)
      (parameters : List Parameter) (code : Code)

/-- Apply one builder call, keeping the tree it leaves behind whether or not
the call reported an error (in-place mutation in the source). -/
def applyOp (t : ObjectTree) : BuilderOp → ObjectTree
  | .entry location path len comment suffix => (t.add_entry location path len comment suffix).1
  | .var location path len expr comment suffix =>
    (t.add_var location path len expr comment suffix).1
  | .proc location path len parameters code => (t.add_proc location path len parameters code).1

/-- A tree built solely through the public builder API. -/
def buildTree (ops : List BuilderOp) : ObjectTree :=
  ops.foldl applyOp ObjectTree.default

/-- Every proc name present in any node's procs map has a non-empty override
list. -/
def ProcsOK (t : ObjectTree) : Prop :=
  ∀ n ∈ t.graph_nodes, ∀ pr ∈ n.procs, (pr.2 : TypeProc).value ≠ []

-- ----------------------------------------------------------------------------
-- Statement helpers and concrete example trees

/-- The slot stored for proc `nm` under node `i` (projection helper for
statements). -/
def ObjectTree.procSlot (t : ObjectTree) (i : Nat) (nm : String) : Option TypeProc :=
  (t.node i).bind fun n => assocGet nm n.procs

/-- The slot stored for var `k` under node `i` (projection helper for
statements). -/
def ObjectTree.varSlot (t : ObjectTree) (i : Nat) (k : String) : Option TypeVar :=
  (t.node i).bind fun n => assocGet k n.vars

/-- The raw `parent_type` field of node `i` (projection helper for
statements). -/
def ObjectTree.parentIdxOf (t : ObjectTree) (i : Nat) : Option Nat :=
  (t.node i).map fun n => n.parent_type

/-- A node with its `parent_type` field normalized away, used to state that
the finalization pass changes nothing but the `parent_type` fields. -/
def stripPT (n : Type') : Type' := { n with parent_type := 0 }

/-- The path a constant yields when used as a `parent_type` override: a
string constant verbatim, a prefab with no attached variable overrides as
its slash-joined path, anything else nothing (the two accepting arms of the
`simple_evaluate` match in `assign_parent_types`). -/
def constantPath : Constant → Option String
  | .str s => some s
  | .prefab p pvars =>
    if pvars.isEmpty then some (p.foldl (fun acc piece => acc ++ "/" ++ piece) "")
    else none
  | .other _ => none

/-- The declaration-setting step of `register_proc`: the slot's declaration
is set from `is_verb` only when not already present. -/
def procSlotAfterDecl (location : Location) (is_verb : Option Bool) (proc0 : TypeProc) :
    TypeProc :=
  if proc0.declaration = none then
    { proc0 with declaration := is_verb.map fun v => { location := location, is_verb := v } }
  else proc0

/-- The whole slot transformation of one `register_proc` call: set the
declaration if absent, then push the new `ProcValue`. -/
def procSlotPush (location : Location) (is_verb : Option Bool) (parameters : List Parameter)
    (code : Code) (proc0 : TypeProc) : TypeProc :=
  let proc1 := procSlotAfterDecl location is_verb proc0
  { proc1 with value := proc1.value ++
      [{ location := location, parameters := parameters, docs := [], code := code }] }

/-- The payload of one `register_proc` call. -/
structure ProcPayload where
  location : Location
  is_verb : Option Bool
  parameters : List Parameter
  code : Code
deriving DecidableEq, Repr

/-- The `ProcValue` a `register_proc` call appends for its payload. -/
def payloadValue (p : ProcPayload) : ProcValue :=
  { location := p.location, parameters := p.parameters, docs := [], code := p.code }

/-- `n` successive `register_proc` calls for the same name under the same
type (the slot-mutation step every successful `add_proc` call performs). -/
def register_proc_n (t : ObjectTree) (parent : Nat) (nm : String) :
    List ProcPayload → ObjectTree
  | [] => t
  | p :: ps =>
    register_proc_n
      (t.register_proc p.location parent nm p.is_verb p.parameters p.code).1 parent nm ps

/-- A suffix-free variable declaration (`VarSuffix` with no dimensions). -/
def noSuffix : VarSuffix := ⟨id, none⟩

/-- Placeholder expression for `Option.getD` projections in witnesses. -/
def junkExpr : Expression := ⟨fun _ => .error ⟨0, ""⟩⟩

/-- Placeholder node for `Option.getD` projections in witnesses. -/
def junkNode : Type' :=
  { name := "", path := "", location := 0, location_specificity := 0,
    vars := [], procs := [], parent_type := BAD_NODE_INDEX, docs := [] }

/-- Placeholder variable slot for `Option.getD` projections in witnesses. -/
def junkVar : TypeVar :=
  { value := { location := 0, expression := none, constant := none,
               being_evaluated := false, docs := [] },
    declaration := none }

/-- Example program A: builtins-like skeleton plus a `/mob` whose
`parent_type` override names `/datum`, a plain top-level `/foo`, a nested
`/foo/bar` with a `parent_type` override naming `/atom`, and a `/baz` whose
override names an unregistered path. -/
def exTreeA : ObjectTree :=
  buildTree
    [ .entry 10 ["datum"] 1 [] noSuffix,
      .entry 11 ["atom"] 1 [] noSuffix,
      .entry 12 ["atom", "movable"] 2 [] noSuffix,
      .entry 13 ["mob"] 1 [] noSuffix,
      .var 14 ["mob", "var", "parent_type"] 3 ⟨fun _ => .ok (.str "/datum")⟩ [] noSuffix,
      .entry 15 ["foo"] 1 [] noSuffix,
      .entry 16 ["foo", "bar"] 2 [] noSuffix,
      .var 17 ["foo", "bar", "var", "parent_type"] 4 ⟨fun _ => .ok (.str "/atom")⟩ [] noSuffix,
      .entry 18 ["baz"] 1 [] noSuffix,
      .var 19 ["baz", "var", "parent_type"] 3 ⟨fun _ => .ok (.str "/nowhere")⟩ [] noSuffix ]

/-- Example program A after parent-type assignment. -/
def exTreeAFin : ObjectTree := exTreeA.assign_parent_types.1

/-- The `/mob` node of example A (node 4). -/
def exNodeMob : Type' := (exTreeA.node 4).getD junkNode

/-- The `/foo/bar` node of example A (node 6). -/
def exNodeBar : Type' := (exTreeA.node 6).getD junkNode

/-- The `/foo` node of example A (node 5). -/
def exNodeFoo : Type' := (exTreeA.node 5).getD junkNode

/-- The `/baz` node of example A (node 7). -/
def exNodeBaz : Type' := (exTreeA.node 7).getD junkNode

/-- The `parent_type` slot of `/foo/bar` in example A. -/
def exVarBar : TypeVar := (assocGet "parent_type" exNodeBar.vars).getD junkVar

/-- The `parent_type` expression of `/foo/bar` in example A. -/
def exExprBar : Expression := exVarBar.value.expression.getD junkExpr

/-- Example program for C6: declare `/obj/var/health = e1`, then override it
with a second `add_var` call. -/
def exTreeC6 : ObjectTree :=
  buildTree
    [ .entry 20 ["obj"] 1 [] noSuffix,
      .var 21 ["obj", "var", "health"] 3 ⟨fun _ => .ok (.str "100")⟩ [] noSuffix ]

/-- The `/obj` node of the C6 example (node 1). -/
def exNodeObjC6 : Type' := (exTreeC6.node 1).getD junkNode

/-- The `health` slot after the declaring call of the C6 example. -/
def exVarC6 : TypeVar := (assocGet "health" exNodeObjC6.vars).getD junkVar

/-- The overriding expression of the C6 example. -/
def exExprC6 : Expression := ⟨fun _ => .ok (.str "50")⟩

/-- The C6 example after the second (overriding) `add_var` call. -/
def exTreeC6' : ObjectTree :=
  (exTreeC6.add_var 22 ["obj", "health"] 2 exExprC6 [] noSuffix).1

/-- Example program for C7: `/obj` with a proc `f`, against which a
var-shaped registration of the same name is then attempted. -/
def exTreeC7 : ObjectTree :=
  buildTree
    [ .entry 30 ["obj"] 1 [] noSuffix,
      .proc 31 ["obj", "proc", "f"] 3 [] .builtin ]

/-- Example program for C10: a root child named `list` plus an unrelated
`/obj`. -/
def exTreeC10 : ObjectTree :=
  buildTree [ .entry 40 ["list"] 1 [] noSuffix, .entry 41 ["obj"] 1 [] noSuffix ]

/-- Example base tree for C4: `/obj` holds one `attack` override, and
`/obj/item` (which holds none) has `/obj` as semantic parent after
finalization. -/
def exTreeC4 : ObjectTree :=
  (buildTree
    [ .entry 50 ["obj"] 1 [] noSuffix,
      .proc 51 ["obj", "proc", "attack"] 3 [7] .builtin,
      .entry 52 ["obj", "item"] 2 [] noSuffix ]).assign_parent_types.1

/-- The two payloads registered for `attack` under `/obj/item` in the C4
witness. -/
def exCallsC4 : List ProcPayload :=
  [ { location := 53, is_verb := none, parameters := [1], code := .disabled },
    { location := 54, is_verb := none, parameters := [2], code := .builtin } ]

/-- The C4 base tree after the two registrations. -/
def exTreeC4' : ObjectTree := register_proc_n exTreeC4 2 "attack" exCallsC4

/-- The `/obj/item` node of the C4 base tree (node 2). -/
def exNodeItemC4 : Type' := (exTreeC4.node 2).getD junkNode

/-- Example ops for the C9 witness. -/
def exOpsC9 : List BuilderOp :=
  [ .entry 60 ["obj"] 1 [] noSuffix,
    .proc 61 ["obj", "proc", "attack"] 3 [] .builtin,
    .proc 62 ["obj", "attack"] 2 [5] .disabled,
    .var 63 ["obj", "var", "health"] 3 ⟨fun _ => .ok (.str "1")⟩ [] noSuffix ]

/-- The C6 example after the path walk of the second `add_var` call. -/
def exTmC6 : ObjectTree := (exTreeC6.get_from_path 22 ["obj", "health"] 2).1

/-- The `/obj` node of the C6 example as seen by the second call. -/
def exNodeMidC6 : Type' := (exTmC6.node 1).getD junkNode

/-- The `health` slot of the C6 example as seen by the second call. -/
def exVarMidC6 : TypeVar := (assocGet "health" exNodeMidC6.vars).getD junkVar

/-- The finalized `/baz` node of example A (bogus `parent_type`, so its
resolved parent is the root). -/
def exNodeBazFin : Type' := (exTreeAFin.node 7).getD junkNode

/-- The finalized root node of example A. -/
def exRootFin : Type' := (exTreeAFin.node 0).getD junkNode

/-- The C4 base tree after walking the path of an `add_proc` call for a
fresh proc name under `/obj/item`. -/
def exBridgeU1 : ObjectTree := (exTreeC4.get_from_path 55 ["obj", "item", "zap"] 3).1

-- ----------------------------------------------------------------------------
-- Basic lemmas about the collection models

theorem listModify_length {α : Type} (f : α → α) (i : Nat) (l : List α) :
    (listModify f i l).length = l.length := by
  induction l generalizing i with
  | nil => cases i <;> rfl
  | cons a as ih =>
    cases i with
    | zero => rfl
    | succ n => simpa [listModify] using ih n

theorem listModify_get? {α : Type} (f : α → α) (i j : Nat) (l : List α) :
    (listModify f i l).get? j = if j = i then (l.get? j).map f else l.get? j := by
  induction l generalizing i j with
  | nil => simp [listModify]
  | cons a as ih =>
    cases i with
    | zero =>
      cases j with
      | zero => simp [listModify]
      | succ m => simp [listModify]
    | succ n =>
      cases j with
      | zero => simp [listModify]
      | succ m => simpa [listModify] using ih n m

theorem listModify_eq_self {α : Type} (f : α → α) (i : Nat) (l : List α)
    (h : ∀ a, l.get? i = some a → f a = a) : listModify f i l = l := by
  induction l generalizing i with
  | nil => cases i <;> rfl
  | cons a as ih =>
    cases i with
    | zero => simp [listModify, h a rfl]
    | succ n =>
      simpa [listModify] using ih n (fun b hb => h b (by simpa using hb))

theorem mem_listModify {α : Type} (f : α → α) (i : Nat) (l : List α) (x : α)
    (hx : x ∈ listModify f i l) : x ∈ l ∨ ∃ a ∈ l, x = f a := by
  induction l generalizing i with
  | nil => simp [listModify] at hx
  | cons a as ih =>
    cases i with
    | zero =>
      rcases (by simpa [listModify] using hx : x = f a ∨ x ∈ as) with h | h
      · exact Or.inr ⟨a, by simp, h⟩
      · exact Or.inl (by simp [h])
    | succ n =>
      rcases (by simpa [listModify] using hx : x = a ∨ x ∈ listModify f n as) with h | h
      · exact Or.inl (by simp [h])
      · rcases ih n h with h' | ⟨b, hb, hfb⟩
        · exact Or.inl (by simp [h'])
        · exact Or.inr ⟨b, by simp [hb], hfb⟩

theorem assocGet_lhmUpdate {α : Type} (k : String) (f : α → α) (m : List (String × α)) :
    assocGet k (lhmUpdate k f m) = (assocGet k m).map f := by
  induction m with
  | nil => rfl
  | cons p rest ih =>
    obtain ⟨k', v⟩ := p
    by_cases h : k' = k
    · simp [lhmUpdate, assocGet, h]
    · simp [lhmUpdate, assocGet, h, ih]

theorem lhmEntryOrInsert_of_mem {α : Type} (m : List (String × α)) (k : String) (v w : α)
    (h : assocGet k m = some w) : lhmEntryOrInsert m k v = m := by
  simp [lhmEntryOrInsert, h]

theorem assocGet_lhmInsertOrReplace {α : Type} (k : String) (v : α) (m : List (String × α)) :
    assocGet k (lhmInsertOrReplace k v m) = some v := by
  induction m with
  | nil => simp [lhmInsertOrReplace, assocGet]
  | cons p rest ih =>
    obtain ⟨k', v'⟩ := p
    by_cases h : k' = k
    · simp [lhmInsertOrReplace, assocGet, h]
    · simp [lhmInsertOrReplace, assocGet, h, ih]

theorem mem_lhmInsertOrReplace {α : Type} (k : String) (v : α) (m : List (String × α))
    (p : String × α) (hp : p ∈ lhmInsertOrReplace k v m) : p ∈ m ∨ p.2 = v := by
  induction m with
  | nil =>
    rcases (by simpa [lhmInsertOrReplace] using hp : p = (k, v)) with rfl
    exact Or.inr rfl
  | cons q rest ih =>
    obtain ⟨k', v'⟩ := q
    by_cases h : k' = k
    · rcases (by simpa [lhmInsertOrReplace, h] using hp : p = (k', v) ∨ p ∈ rest) with h1 | h1
      · exact Or.inr (by simp [h1])
      · exact Or.inl (by simp [h1])
    · rcases (by simpa [lhmInsertOrReplace, h] using hp :
          p = (k', v') ∨ p ∈ lhmInsertOrReplace k v rest) with h1 | h1
      · exact Or.inl (by simp [h1])
      · rcases ih h1 with h2 | h2
        · exact Or.inl (by simp [h2])
        · exact Or.inr h2

theorem mem_lhmEntryOrInsert {α : Type} (m : List (String × α)) (k : String) (v : α)
    (p : String × α) (hp : p ∈ lhmEntryOrInsert m k v) : p ∈ m ∨ p.2 = v := by
  unfold lhmEntryOrInsert at hp
  cases h : assocGet k m with
  | some w => rw [h] at hp; exact Or.inl hp
  | none =>
    rw [h] at hp
    rcases (by simpa using hp : p ∈ m ∨ p = (k, v)) with h1 | h1
    · exact Or.inl h1
    · exact Or.inr (by simp [h1])

theorem assocGet_append_right_self {α : Type} (k : String) (v : α) (m : List (String × α))
    (h : assocGet k m = none) : assocGet k (m ++ [(k, v)]) = some v := by
  induction m with
  | nil => simp [assocGet]
  | cons p rest ih =>
    obtain ⟨k', v'⟩ := p
    by_cases hk : k' = k
    · simp [assocGet, hk] at h
    · simp [assocGet, hk] at h ⊢
      exact ih h

-- ----------------------------------------------------------------------------
-- Basic lemmas about node access

theorem node_updateNode (t : ObjectTree) (i j : Nat) (f : Type' → Type') :
    (t.updateNode i f).node j = if j = i then (t.node j).map f else t.node j :=
  listModify_get? f i j t.graph_nodes

theorem updateNode_types (t : ObjectTree) (i : Nat) (f : Type' → Type') :
    (t.updateNode i f).types = t.types := rfl

theorem updateNode_edges (t : ObjectTree) (i : Nat) (f : Type' → Type') :
    (t.updateNode i f).graph_edges = t.graph_edges := rfl

theorem updateNode_eq_self (t : ObjectTree) (i : Nat) (f : Type' → Type')
    (h : ∀ n, t.node i = some n → f n = n) : t.updateNode i f = t := by
  unfold ObjectTree.updateNode
  rw [listModify_eq_self f i t.graph_nodes (fun a ha => h a ha)]

-- ----------------------------------------------------------------------------
-- C10

/-- C10: segment-sequence lookup (`type_by_path` / `type_by_path_approx`)
special-cases a leading `list` segment: when the first segment matches the
root's child named `list`, all remaining segments are ignored and the lookup
reports a fully resolved (exact) match at that node. -/
theorem c10_list_prefix_lookup (t : ObjectTree) (j : Nat)
    (h : t.find_neighbor 0 "list" = some j) :
    ∀ rest : List String,
      t.type_by_path_approx ("list" :: rest) = (true, j) ∧
      t.type_by_path ("list" :: rest) = some j := by
  intro rest
  have h1 : t.type_by_path_approx ("list" :: rest) = (true, j) := by
    simp [ObjectTree.type_by_path_approx, ObjectTree.type_by_path_go, h]
  exact ⟨h1, by simp [ObjectTree.type_by_path, h1]⟩

theorem c10_list_prefix_lookup_witness :
    exTreeC10.find_neighbor 0 "list" = some 1 ∧
    (exTreeC10.type_by_path_approx ["list", "a", "b"] = (true, 1) ∧
     exTreeC10.type_by_path ["list", "a", "b"] = some 1) :=
  ⟨rfl, c10_list_prefix_lookup exTreeC10 1 rfl ["a", "b"]⟩

-- ----------------------------------------------------------------------------
-- C5: subtype_or_add

theorem subtype_or_add_found (t : ObjectTree) (loc : Location) (parent : Nat)
    (child : String) (len : Nat) (c : Nat) (h : t.find_neighbor parent child = some c) :
    t.subtype_or_add loc parent child len =
      (t.updateNode c (fun node =>
        if node.location_specificity > len then
          { node with location_specificity := len, location := loc }
        else node), c) := by
  simp [ObjectTree.subtype_or_add, h]

theorem subtype_or_add_fresh (t : ObjectTree) (loc : Location) (parent : Nat)
    (child : String) (len : Nat) (h : t.find_neighbor parent child = none) :
    t.subtype_or_add loc parent child len =
      ({ graph_nodes := t.graph_nodes ++
          [{ name := child,
             path := (match t.node parent with | some n => n.path | none => "") ++ "/" ++ child,
             vars := [], procs := [], location := loc,
             location_specificity := len, parent_type := BAD_NODE_INDEX, docs := [] }],
         graph_edges := t.graph_edges ++ [(parent, t.graph_nodes.length)],
         types := btreeInsert
           ((match t.node parent with | some n => n.path | none => "") ++ "/" ++ child)
           t.graph_nodes.length t.types }, t.graph_nodes.length) := by
  simp [ObjectTree.subtype_or_add, h]

theorem node_after_fresh (t : ObjectTree) (loc : Location) (parent : Nat)
    (child : String) (len : Nat) (h : t.find_neighbor parent child = none) :
    (t.subtype_or_add loc parent child len).1.node t.graph_nodes.length =
      some { name := child,
             path := (match t.node parent with | some n => n.path | none => "") ++ "/" ++ child,
             vars := [], procs := [], location := loc,
             location_specificity := len, parent_type := BAD_NODE_INDEX, docs := [] } := by
  rw [subtype_or_add_fresh t loc parent child len h]
  show (t.graph_nodes ++ [_]).get? t.graph_nodes.length = _
  rw [List.get?_concat_length]

theorem find_neighbor_extend (t : ObjectTree) (parent : Nat) (child : String)
    (ts : List (String × Nat)) (nn : Type') (hname : nn.name = child) :
    ObjectTree.find_neighbor
      { graph_nodes := t.graph_nodes ++ [nn],
        graph_edges := t.graph_edges ++ [(parent, t.graph_nodes.length)],
        types := ts } parent child = some t.graph_nodes.length := by
  simp only [ObjectTree.find_neighbor, ObjectTree.neighbors_out]
  rw [List.filter_append, List.map_append, List.reverse_append]
  have h1 : List.filter (fun e => decide (e.1 = parent)) [(parent, t.graph_nodes.length)]
      = [(parent, t.graph_nodes.length)] := by simp
  rw [h1]
  simp only [List.map_cons, List.map_nil, List.reverse_cons, List.reverse_nil,
    List.nil_append, List.cons_append]
  rw [List.find?_cons_of_pos]
  have h2 : (t.graph_nodes ++ [nn]).get? t.graph_nodes.length = some nn :=
    List.get?_concat_length t.graph_nodes nn
  show (match ObjectTree.node _ t.graph_nodes.length with
    | some n => decide (n.name = child) | none => false) = true
  show (match (t.graph_nodes ++ [nn]).get? t.graph_nodes.length with
    | some n => decide (n.name = child) | none => false) = true
  rw [h2]
  simp [hname]

theorem find_neighbor_after_fresh (t : ObjectTree) (loc : Location) (parent : Nat)
    (child : String) (len : Nat) (h : t.find_neighbor parent child = none) :
    (t.subtype_or_add loc parent child len).1.find_neighbor parent child =
      some t.graph_nodes.length := by
  rw [subtype_or_add_fresh t loc parent child len h]
  exact find_neighbor_extend t parent child _ _ rfl

/-- C5: for a path registered twice with two different specificity numbers
the node's final recorded location is that of the occurrence with the
numerically smaller specificity, in whichever order the two registrations
happen; `subtype_or_add` always returns the existing handle for a matching
child and updates the recorded location and specificity exactly when the new
specificity is strictly smaller than the stored one. -/
theorem c5_specificity_tiebreak (t : ObjectTree) (parent : Nat) (child : String)
    (l1 l2 : Location) (s1 s2 : Nat) :
    (∀ c node, t.find_neighbor parent child = some c → t.node c = some node →
      (t.subtype_or_add l2 parent child s2).2 = c ∧
      (t.subtype_or_add l2 parent child s2).1.node c =
        some (if node.location_specificity > s2 then
          { node with location_specificity := s2, location := l2 }
        else node)) ∧
    (t.find_neighbor parent child = none → s1 ≠ s2 →
      ((t.subtype_or_add l1 parent child s1).1.subtype_or_add l2 parent child s2).2 =
        (t.subtype_or_add l1 parent child s1).2 ∧
      (((t.subtype_or_add l1 parent child s1).1.subtype_or_add l2 parent child s2).1.node
          (t.subtype_or_add l1 parent child s1).2).map (fun n => n.location) =
        some (if s1 < s2 then l1 else l2) ∧
      (((t.subtype_or_add l1 parent child s1).1.subtype_or_add l2 parent child s2).1.node
          (t.subtype_or_add l1 parent child s1).2).map (fun n => n.location_specificity) =
        some (min s1 s2)) := by
  constructor
  · intro c node hfind hnode
    rw [subtype_or_add_found t l2 parent child s2 c hfind]
    refine ⟨rfl, ?_⟩
    rw [node_updateNode, if_pos rfl, hnode]
    rfl
  · intro hfresh hne
    have hsnd : (t.subtype_or_add l1 parent child s1).2 = t.graph_nodes.length := by
      rw [subtype_or_add_fresh t l1 parent child s1 hfresh]
    have hfind2 := find_neighbor_after_fresh t l1 parent child s1 hfresh
    have hnode1 := node_after_fresh t l1 parent child s1 hfresh
    rw [subtype_or_add_found _ l2 parent child s2 _ hfind2]
    rw [hsnd]
    refine ⟨rfl, ?_⟩
    rw [node_updateNode, if_pos rfl, hnode1]
    rcases Nat.lt_or_ge s2 s1 with hlt | hge
    · have h1 : ¬ s1 < s2 := Nat.not_lt.mpr (Nat.le_of_lt hlt)
      simp [hlt, h1, Nat.min_eq_right (Nat.le_of_lt hlt)]
    · have h1 : s1 < s2 := Nat.lt_of_le_of_ne hge hne
      have h2 : ¬ s2 < s1 := Nat.not_lt.mpr hge
      simp [h1, h2, Nat.min_eq_left (Nat.le_of_lt h1)]

theorem c5_specificity_tiebreak_witness :
    (ObjectTree.default.find_neighbor 0 "obj" = none ∧ (5 : Nat) ≠ 3 ∧
      ((ObjectTree.default.subtype_or_add 100 0 "obj" 5).1.subtype_or_add 200 0 "obj" 3).2 =
        (ObjectTree.default.subtype_or_add 100 0 "obj" 5).2 ∧
      (((ObjectTree.default.subtype_or_add 100 0 "obj" 5).1.subtype_or_add
          200 0 "obj" 3).1.node
          (ObjectTree.default.subtype_or_add 100 0 "obj" 5).2).map (fun n => n.location) =
        some 200) ∧
    (ObjectTree.default.find_neighbor 0 "obj" = none ∧ (3 : Nat) ≠ 5 ∧
      ((ObjectTree.default.subtype_or_add 100 0 "obj" 3).1.subtype_or_add 200 0 "obj" 5).2 =
        (ObjectTree.default.subtype_or_add 100 0 "obj" 3).2 ∧
      (((ObjectTree.default.subtype_or_add 100 0 "obj" 3).1.subtype_or_add
          200 0 "obj" 5).1.node
          (ObjectTree.default.subtype_or_add 100 0 "obj" 3).2).map (fun n => n.location) =
        some 100) := by
  have h1 := (c5_specificity_tiebreak ObjectTree.default 0 "obj" 100 200 5 3).2
    rfl (by decide)
  have h2 := (c5_specificity_tiebreak ObjectTree.default 0 "obj" 100 200 3 5).2
    rfl (by decide)
  exact ⟨⟨rfl, by decide, h1.1, by rw [h1.2.1]; decide⟩,
    ⟨rfl, by decide, h2.1, by rw [h2.2.1]; decide⟩⟩

-- ----------------------------------------------------------------------------
-- C7: variable-registration error conditions

/-- C7 counterexample: `/obj` already has `f` registered as a proc, yet a
var-shaped registration of `f` under `/obj` succeeds with no error — the
"keyword mismatch" check is about the keyword segment, never about what is
already registered under the name. -/
theorem c7_counterexample :
    (exTreeC7.procSlot 1 "f").isSome = true ∧
    (exTreeC7.add_var 32 ["obj", "f"] 2 junkExpr [] noSuffix).2 = .ok () :=
  ⟨rfl, rfl⟩

theorem var_quals_all_quals (st co tm : Bool) (p : String) (r : List String)
    (hp : p = "global" ∨ p = "static" ∨ p = "tmp" ∨ p = "const")
    (hr : ∀ s ∈ r, s = "global" ∨ s = "static" ∨ s = "tmp" ∨ s = "const") :
    var_quals st co tm p r = none := by
  induction r generalizing st co tm p with
  | nil => rcases hp with rfl | rfl | rfl | rfl <;> rfl
  | cons a as ih =>
    have hcond : (decide (p = "global") || decide (p = "static") || decide (p = "tmp") ||
        decide (p = "const")) = true := by
      rcases hp with rfl | rfl | rfl | rfl <;> rfl
    rw [var_quals, if_pos hcond]
    exact ih _ _ _ _ (hr a (by simp)) (fun s hs => hr s (by simp [hs]))

/-- C7 (amended): variable registration fails with an error whenever the
declaration-keyword segment handed to it is the procedure keyword (`proc` or
`verb`) — independently of what is already registered under the name — and
returns an empty result with no error whenever the keyword-and-qualifier
block has no following name segment. -/
theorem c7_var_registration_errors :
    (∀ (t : ObjectTree) (loc : Location) (parent : Nat) (prev : String) (rest : List String)
        (comment : DocCollection) (sfx : VarSuffix), is_proc_decl prev = true →
        t.register_var loc parent prev rest comment sfx =
          (t, .error ⟨loc, "proc looks like a var"⟩)) ∧
    (∀ (t : ObjectTree) (loc : Location) (parent : Nat) (rest : List String)
        (comment : DocCollection) (sfx : VarSuffix),
        (∀ s ∈ rest, s = "global" ∨ s = "static" ∨ s = "tmp" ∨ s = "const") →
        t.register_var loc parent "var" rest comment sfx = (t, .ok none)) := by
  constructor
  · intro t loc parent prev rest comment sfx h
    have hv : is_var_decl prev = false := by
      rcases (by simpa [is_proc_decl] using h : prev = "proc" ∨ prev = "verb") with rfl | rfl
        <;> rfl
    simp [ObjectTree.register_var, hv, h]
  · intro t loc parent rest comment sfx hall
    cases rest with
    | nil => rfl
    | cons p r =>
      have hq : var_quals false false false p r = none :=
        var_quals_all_quals false false false p r (hall p (by simp))
          (fun s hs => hall s (by simp [hs]))
      simp [ObjectTree.register_var, is_var_decl, hq]

theorem c7_var_registration_errors_witness :
    (is_proc_decl "proc" = true ∧
      ObjectTree.default.register_var 7 0 "proc" ["x"] [] noSuffix =
        (ObjectTree.default, .error ⟨7, "proc looks like a var"⟩)) ∧
    ((∀ s ∈ ["const"], s = "global" ∨ s = "static" ∨ s = "tmp" ∨ s = "const") ∧
      ObjectTree.default.register_var 7 0 "var" ["const"] [] noSuffix =
        (ObjectTree.default, .ok none)) :=
  ⟨⟨rfl, c7_var_registration_errors.1 ObjectTree.default 7 0 "proc" ["x"] [] noSuffix rfl⟩,
   ⟨by decide, c7_var_registration_errors.2 ObjectTree.default 7 0 ["const"] [] noSuffix
      (by decide)⟩⟩

-- ----------------------------------------------------------------------------
-- C6: add_var override semantics

theorem register_var_finish_existing (t : ObjectTree) (loc : Location) (parent : Nat)
    (d st co tm : Bool) (prev : String) (rest : List String) (comment : DocCollection)
    (sfx : VarSuffix) (node : Type') (tv : TypeVar)
    (hnode : t.node parent = some node)
    (hexist : assocGet (split_type_path prev rest).2 node.vars = some tv) :
    t.register_var_finish loc parent d st co tm prev rest comment sfx =
      (t, .ok (some (split_type_path prev rest).2)) := by
  rw [Prod.ext_iff]
  constructor
  · show t.updateNode parent _ = t
    apply updateNode_eq_self
    intro n hn
    rw [hnode] at hn
    injection hn with hn'
    subst hn'
    show { node with vars := lhmEntryOrInsert node.vars (split_type_path prev rest).2 _ } = node
    rw [lhmEntryOrInsert_of_mem _ _ _ tv hexist]
  · rfl

theorem register_var_existing (t : ObjectTree) (loc : Location) (parent : Nat)
    (prev : String) (rest : List String) (comment : DocCollection) (sfx : VarSuffix)
    (node : Type') (k : String) (tv : TypeVar)
    (hkey : register_var_key prev rest = some k)
    (hnode : t.node parent = some node)
    (hexist : assocGet k node.vars = some tv) :
    t.register_var loc parent prev rest comment sfx = (t, .ok (some k)) := by
  by_cases hv : is_var_decl prev = true
  · have hprev : prev = "var" := by simpa [is_var_decl] using hv
    subst hprev
    cases rest with
    | nil =>
      have hnone : register_var_key "var" ([] : List String) = none := rfl
      rw [hnone] at hkey
      exact absurd hkey (by simp)
    | cons p r =>
      have hunf : register_var_key "var" (p :: r) =
          (match var_quals false false false p r with
           | none => none
           | some (_, _, _, prev', rest') => some (split_type_path prev' rest').2) := rfl
      rw [hunf] at hkey
      cases hq : var_quals false false false p r with
      | none => rw [hq] at hkey; exact absurd hkey (by simp)
      | some flags =>
        obtain ⟨st, co, tm, prev', rest'⟩ := flags
        rw [hq] at hkey
        have hk : (split_type_path prev' rest').2 = k := by
          simpa using hkey
        show (match var_quals false false false p r with
          | none => (t, Except.ok none)
          | some (is_static, is_const, is_tmp, prev', rest') =>
            t.register_var_finish loc parent true is_static is_const is_tmp prev' rest'
              comment sfx) = (t, Except.ok (some k))
        rw [hq]
        rw [← hk] at hexist
        show t.register_var_finish loc parent true st co tm prev' rest' comment sfx =
          (t, Except.ok (some k))
        rw [register_var_finish_existing t loc parent true st co tm prev' rest' comment sfx
          node tv hnode hexist, hk]
  · by_cases hp : is_proc_decl prev = true
    · have : register_var_key prev rest = none := by
        unfold register_var_key
        rw [if_neg hv, if_pos hp]
      rw [this] at hkey
      exact absurd hkey (by simp)
    · have hkform : register_var_key prev rest = some (split_type_path prev rest).2 := by
        unfold register_var_key
        rw [if_neg hv, if_neg hp]
      rw [hkform] at hkey
      have hk : (split_type_path prev rest).2 = k := by simpa using hkey
      unfold ObjectTree.register_var
      rw [if_neg hv, if_neg hp]
      rw [← hk] at hexist
      rw [register_var_finish_existing t loc parent false false false false prev rest comment
        sfx node tv hnode hexist, hk]

/-- C6: calling `add_var` a second time on the exact same full path (an
override of the already-registered variable) leaves the slot's `declaration`
record unchanged while replacing the slot's value `expression` and
`location` with those of the latest call (the remaining value fields are
also kept). -/
theorem c6_add_var_override (t0 tmid : ObjectTree) (segs : List String) (loc : Location)
    (len : Nat) (e : Expression) (comment : DocCollection) (sfx : VarSuffix)
    (parent : Nat) (last : String) (rest : List String)
    (node : Type') (k : String) (tv : TypeVar)
    (hwalk : t0.get_from_path loc segs len = (tmid, .ok (parent, last, rest)))
    (hkey : register_var_key last rest = some k)
    (hnode : tmid.node parent = some node)
    (hexist : assocGet k node.vars = some tv) :
    ∃ t2, t0.add_var loc segs len e comment sfx = (t2, .ok ()) ∧
      t2.varSlot parent k =
        some { value := { tv.value with location := loc, expression := some e },
               declaration := tv.declaration } := by
  have hreg := register_var_existing tmid loc parent last rest comment sfx node k tv
    hkey hnode hexist
  have hav : t0.add_var loc segs len e comment sfx =
      (tmid.updateNode parent (fun n =>
        { n with vars := lhmUpdate k (fun tv' =>
            { tv' with value := { tv'.value with
                location := loc,
                expression := some e } }) n.vars }), .ok ()) := by
    show (match t0.get_from_path loc segs len with
      | (t1, Except.error e') => (t1, Except.error e')
      | (t1, Except.ok (parent', initial, rest')) =>
        match t1.register_var loc parent' initial rest' comment sfx with
        | (t2, Except.error e') => (t2, Except.error e')
        | (t2, Except.ok none) => (t2, Except.error ⟨loc, "var must have a name"⟩)
        | (t2, Except.ok (some key)) =>
          (t2.updateNode parent' (fun n =>
            { n with vars := lhmUpdate key (fun tv' =>
                { tv' with value := { tv'.value with
                    location := loc,
                    expression := some e } }) n.vars }), Except.ok ())) = _
    rw [hwalk]
    show (match tmid.register_var loc parent last rest comment sfx with
      | (t2, Except.error e') => (t2, Except.error e')
      | (t2, Except.ok none) => (t2, Except.error ⟨loc, "var must have a name"⟩)
      | (t2, Except.ok (some key)) =>
        (t2.updateNode parent (fun n =>
          { n with vars := lhmUpdate key (fun tv' =>
              { tv' with value := { tv'.value with
                  location := loc,
                  expression := some e } }) n.vars }), Except.ok ())) = _
    rw [hreg]
  refine ⟨_, hav, ?_⟩
  unfold ObjectTree.varSlot
  rw [node_updateNode, if_pos rfl, hnode]
  show assocGet k (lhmUpdate k _ node.vars) = _
  rw [assocGet_lhmUpdate, hexist]
  rfl

theorem c6_add_var_override_witness :
    (exTreeC6.get_from_path 22 ["obj", "health"] 2 = (exTmC6, .ok (1, "health", [])) ∧
      register_var_key "health" [] = some "health" ∧
      exTmC6.node 1 = some exNodeMidC6 ∧
      assocGet "health" exNodeMidC6.vars = some exVarMidC6 ∧
      exVarMidC6.declaration.isSome = true ∧
      exVarMidC6.value.location = 21) ∧
    ∃ t2, exTreeC6.add_var 22 ["obj", "health"] 2 exExprC6 [] noSuffix = (t2, .ok ()) ∧
      t2.varSlot 1 "health" =
        some { value := { exVarMidC6.value with location := 22, expression := some exExprC6 },
               declaration := exVarMidC6.declaration } :=
  ⟨⟨rfl, rfl, rfl, rfl, rfl, rfl⟩,
    c6_add_var_override exTreeC6 exTmC6 ["obj", "health"] 22 2 exExprC6 [] noSuffix
      1 "health" [] exNodeMidC6 "health" exVarMidC6 rfl rfl rfl rfl⟩

-- ----------------------------------------------------------------------------
-- C8: is_subtype_of

theorem is_subtype_of_refl (t : ObjectTree) (fuel i : Nat) (h : 1 ≤ fuel) :
    t.is_subtype_of fuel i i = true := by
  cases fuel with
  | zero => omega
  | succ n => simp [ObjectTree.is_subtype_of]

theorem is_subtype_of_mono (t : ObjectTree) (f1 f2 i p : Nat)
    (h : t.is_subtype_of f1 i p = true) (hle : f1 ≤ f2) :
    t.is_subtype_of f2 i p = true := by
  induction f1 generalizing f2 i with
  | zero => simp [ObjectTree.is_subtype_of] at h
  | succ n ih =>
    cases f2 with
    | zero => omega
    | succ m =>
      rw [ObjectTree.is_subtype_of] at h ⊢
      by_cases hip : i = p
      · simp [hip]
      · rw [if_neg hip] at h ⊢
        cases hpt : t.parentTypeOpt i with
        | none => rw [hpt] at h; simp at h
        | some j =>
          rw [hpt] at h
          exact ih m j h (by omega)

theorem is_subtype_of_trans (t : ObjectTree) (f1 f2 a b c : Nat)
    (h1 : t.is_subtype_of f1 a b = true) (h2 : t.is_subtype_of f2 b c = true) :
    t.is_subtype_of (f1 + f2) a c = true := by
  induction f1 generalizing a with
  | zero => simp [ObjectTree.is_subtype_of] at h1
  | succ n ih =>
    rw [ObjectTree.is_subtype_of] at h1
    by_cases hab : a = b
    · subst hab
      exact is_subtype_of_mono t f2 (n + 1 + f2) a c h2 (by omega)
    · rw [if_neg hab] at h1
      cases hpt : t.parentTypeOpt a with
      | none => rw [hpt] at h1; simp at h1
      | some j =>
        rw [hpt] at h1
        have hstep := ih j h1
        have hng : (n + 1 + f2) = (n + f2) + 1 := by omega
        rw [hng, ObjectTree.is_subtype_of]
        by_cases hac : a = c
        · simp [hac]
        · rw [if_neg hac, hpt]
          exact hstep

/-- C8: `is_subtype_of` is reflexive and transitive along semantic-parent
chains (for all sufficient fuel), and a type whose resolved parent fell back
to the root — as happens for a `parent_type` override that fails to
resolve — is a subtype of the root and of itself, and of nothing else. -/
theorem c8_subtype_refl_trans_bogus (t : ObjectTree) :
    (∀ fuel i, 1 ≤ fuel → t.is_subtype_of fuel i i = true) ∧
    (∀ f1 f2 a b c, t.is_subtype_of f1 a b = true → t.is_subtype_of f2 b c = true →
      t.is_subtype_of (f1 + f2) a c = true) ∧
    (∀ i n rootN, t.node i = some n → n.parent_type = 0 → t.node 0 = some rootN →
      t.node rootN.parent_type = none →
      (∀ fuel, 2 ≤ fuel → t.is_subtype_of fuel i 0 = true) ∧
      (∀ fuel p, t.is_subtype_of fuel i p = true → p = i ∨ p = 0)) := by
  refine ⟨fun fuel i h => is_subtype_of_refl t fuel i h,
    fun f1 f2 a b c h1 h2 => is_subtype_of_trans t f1 f2 a b c h1 h2, ?_⟩
  intro i n rootN hnode hpar hroot hrootbad
  have hpt : t.parentTypeOpt i = some 0 := by
    simp [ObjectTree.parentTypeOpt, hnode, hpar, hroot]
  have hpt0 : t.parentTypeOpt 0 = none := by
    simp [ObjectTree.parentTypeOpt, hroot, hrootbad]
  constructor
  · intro fuel hfuel
    cases fuel with
    | zero => omega
    | succ m =>
      cases m with
      | zero => omega
      | succ m2 =>
        rw [ObjectTree.is_subtype_of]
        by_cases hip : i = 0
        · simp [hip]
        · rw [if_neg hip, hpt]
          exact is_subtype_of_refl t (m2 + 1) 0 (by omega)
  · intro fuel p h
    cases fuel with
    | zero => simp [ObjectTree.is_subtype_of] at h
    | succ m =>
      rw [ObjectTree.is_subtype_of] at h
      by_cases hip : i = p
      · exact Or.inl hip.symm
      · rw [if_neg hip, hpt] at h
        have h' : t.is_subtype_of m 0 p = true := h
        cases m with
        | zero => simp [ObjectTree.is_subtype_of] at h'
        | succ m2 =>
          rw [ObjectTree.is_subtype_of] at h'
          by_cases h0p : 0 = p
          · exact Or.inr h0p.symm
          · rw [if_neg h0p, hpt0] at h'
            simp at h' 

theorem c8_subtype_refl_trans_bogus_witness :
    ((1 : Nat) ≤ 1 ∧ exTreeAFin.is_subtype_of 1 7 7 = true) ∧
    (exTreeAFin.is_subtype_of 2 4 3 = true ∧ exTreeAFin.is_subtype_of 2 3 2 = true ∧
      exTreeAFin.is_subtype_of 4 4 2 = true) ∧
    (exTreeAFin.node 7 = some exNodeBazFin ∧ exNodeBazFin.parent_type = 0 ∧
      exTreeAFin.node 0 = some exRootFin ∧ exTreeAFin.node exRootFin.parent_type = none ∧
      exTreeAFin.is_subtype_of 2 7 0 = true ∧
      (exTreeAFin.is_subtype_of 10 7 1 = true → (1 : Nat) = 7 ∨ (1 : Nat) = 0) ∧
      exTreeAFin.is_subtype_of 10 7 1 = false) := by
  have h := c8_subtype_refl_trans_bogus exTreeAFin
  have hb := h.2.2 7 exNodeBazFin exRootFin (by rfl) (by rfl) (by rfl) (by rfl)
  exact ⟨⟨by decide, h.1 1 7 (by decide)⟩,
    ⟨by decide, by decide, h.2.1 2 2 4 3 2 (by decide) (by decide)⟩,
    ⟨by rfl, by rfl, by rfl, by rfl, hb.1 2 (by decide), hb.2 10 1, by decide⟩⟩

-- ----------------------------------------------------------------------------
-- C4: proc registration and the override-chain walk

theorem procRefVal_eq (t : ObjectTree) (p : ProcRef) :
    t.procRefVal p = (t.procSlot p.ty p.name).bind (fun tp => tp.value.get? p.idx) := by
  unfold ObjectTree.procRefVal ObjectTree.procSlot
  cases hn : t.node p.ty with
  | none => simp
  | some nd =>
    cases hp : assocGet p.name nd.procs with
    | none => simp [hp]
    | some tp => simp [hp]

theorem procSlotAfterDecl_value (loc : Location) (iv : Option Bool) (p0 : TypeProc) :
    (procSlotAfterDecl loc iv p0).value = p0.value := by
  unfold procSlotAfterDecl
  split <;> rfl

theorem procSlotPush_value (loc : Location) (iv : Option Bool) (ps : List Parameter)
    (cd : Code) (p0 : TypeProc) :
    (procSlotPush loc iv ps cd p0).value =
      p0.value ++ [{ location := loc, parameters := ps, docs := [], code := cd }] := by
  simp [procSlotPush, procSlotAfterDecl_value]

theorem register_proc_red (t : ObjectTree) (loc : Location) (parent : Nat) (nm : String)
    (iv : Option Bool) (ps : List Parameter) (cd : Code) (node : Type')
    (hnode : t.node parent = some node) :
    t.register_proc loc parent nm iv ps cd =
      (t.updateNode parent (fun n =>
        { n with procs := lhmInsertOrReplace nm (procSlotPush loc iv ps cd
            ((assocGet nm node.procs).getD (⟨[], none⟩ : TypeProc))) n.procs }),
       .ok ((procSlotAfterDecl loc iv
         ((assocGet nm node.procs).getD (⟨[], none⟩ : TypeProc))).value.length)) := by
  show (match t.node parent with
    | none => (t, Except.ok 0)
    | some node => _) = _
  rw [hnode]
  rfl

theorem register_proc_step (t : ObjectTree) (loc : Location) (parent : Nat) (nm : String)
    (iv : Option Bool) (ps : List Parameter) (cd : Code) (node : Type')
    (hnode : t.node parent = some node) :
    (∃ node', (t.register_proc loc parent nm iv ps cd).1.node parent = some node') ∧
    ((t.register_proc loc parent nm iv ps cd).1.procSlot parent nm).map
        (fun tp => tp.value) =
      some (((t.procSlot parent nm).getD (⟨[], none⟩ : TypeProc)).value ++
        [{ location := loc, parameters := ps, docs := [], code := cd }]) := by
  have hslot : t.procSlot parent nm = assocGet nm node.procs := by
    unfold ObjectTree.procSlot
    rw [hnode]
    simp
  rw [register_proc_red t loc parent nm iv ps cd node hnode]
  constructor
  · rw [node_updateNode, if_pos rfl, hnode]
    exact ⟨_, rfl⟩
  · rw [hslot]
    unfold ObjectTree.procSlot
    rw [node_updateNode, if_pos rfl, hnode]
    show (assocGet nm (lhmInsertOrReplace nm _ node.procs)).map (fun tp => tp.value) = _
    rw [assocGet_lhmInsertOrReplace]
    simp [procSlotPush_value]

theorem register_proc_n_value (parent : Nat) (nm : String) (calls : List ProcPayload) :
    ∀ (t : ObjectTree) (node : Type'), t.node parent = some node →
    (∃ node', (register_proc_n t parent nm calls).node parent = some node') ∧
    (calls ≠ [] →
      ((register_proc_n t parent nm calls).procSlot parent nm).map (fun tp => tp.value) =
        some (((t.procSlot parent nm).getD (⟨[], none⟩ : TypeProc)).value ++
          calls.map payloadValue)) := by
  induction calls with
  | nil =>
    intro t node hnode
    exact ⟨⟨node, hnode⟩, fun h => absurd rfl h⟩
  | cons p ps ih =>
    intro t node hnode
    have hstep := register_proc_step t p.location parent nm p.is_verb p.parameters p.code
      node hnode
    obtain ⟨⟨node1, hnode1⟩, hval1⟩ := hstep
    have hih := ih (t.register_proc p.location parent nm p.is_verb p.parameters p.code).1
      node1 hnode1
    refine ⟨hih.1, fun _ => ?_⟩
    show ((register_proc_n
      (t.register_proc p.location parent nm p.is_verb p.parameters p.code).1
      parent nm ps).procSlot parent nm).map (fun tp => tp.value) = _
    cases hps : ps with
    | nil =>
      show ((t.register_proc p.location parent nm p.is_verb p.parameters
        p.code).1.procSlot parent nm).map (fun tp => tp.value) = _
      rw [hval1]
      simp [payloadValue]
    | cons q qs =>
      rw [← hps]
      have h2 := hih.2 (by simp [hps])
      rw [h2]
      have : (((t.register_proc p.location parent nm p.is_verb p.parameters
          p.code).1.procSlot parent nm).getD (⟨[], none⟩ : TypeProc)).value =
          ((t.procSlot parent nm).getD (⟨[], none⟩ : TypeProc)).value ++
            [payloadValue p] := by
        cases hs : (t.register_proc p.location parent nm p.is_verb p.parameters
            p.code).1.procSlot parent nm with
        | none => rw [hs] at hval1; simp at hval1
        | some tp =>
          rw [hs] at hval1
          simpa [payloadValue] using hval1
      rw [this]
      simp

theorem get_proc_anchor (u : ObjectTree) (nm : String) :
    ∀ (fuel i : Nat) (r : ProcRef), u.get_proc fuel i nm = some r →
      ∃ nd tp, u.node r.ty = some nd ∧ assocGet nm nd.procs = some tp ∧
        r.idx = tp.value.length - 1 := by
  intro fuel
  induction fuel with
  | zero => intro i r h; simp [ObjectTree.get_proc] at h
  | succ n ih =>
    intro i r h
    rw [ObjectTree.get_proc] at h
    cases hn : u.node i with
    | none => rw [hn] at h; simp at h
    | some ty =>
      rw [hn] at h
      have h' : (match assocGet nm ty.procs with
        | some proc => some (⟨i, nm, proc.value.length - 1⟩ : ProcRef)
        | none =>
          match u.parentTypeOpt i with
          | none => none
          | some j => u.get_proc n j nm) = some r := h
      cases hp : assocGet nm ty.procs with
      | some proc =>
        rw [hp] at h'
        injection h' with h2
        subst h2
        exact ⟨ty, proc, hn, hp, rfl⟩
      | none =>
        rw [hp] at h'
        cases hpt : u.parentTypeOpt i with
        | none => rw [hpt] at h'; simp at h'
        | some j => rw [hpt] at h'; exact ih j r h'

/-- C4: after `n` successful proc registrations for one name under one type
starting from a fresh slot, the stored list holds the `n` `ProcValue`
records in append order; the override-chain walk from the last entry yields
them in reverse (the parent proc of entry `i + 1` is entry `i` of the same
list) and the parent proc of entry 0 is the result of `get_proc` on the
semantic parent type, which anchors at the last (most-derived) entry of the
nearest ancestor holding that name; an `add_proc` call whose path walk
resolves to a plain terminal name performs exactly such a registration. -/
theorem c4_proc_override_chain (t0 : ObjectTree) (parent : Nat) (nm : String)
    (node0 : Type') (calls : List ProcPayload)
    (hnode : t0.node parent = some node0)
    (hfresh : assocGet nm node0.procs = none)
    (hne : calls ≠ []) :
    (((register_proc_n t0 parent nm calls).procSlot parent nm).map (fun tp => tp.value) =
      some (calls.map payloadValue)) ∧
    (∀ i, i < calls.length →
      (register_proc_n t0 parent nm calls).procRefVal ⟨parent, nm, i⟩ =
        (calls.get? i).map payloadValue) ∧
    (∀ i, i + 1 < calls.length → ∀ fuel,
      (register_proc_n t0 parent nm calls).parent_proc fuel ⟨parent, nm, i + 1⟩ =
        some ⟨parent, nm, i⟩) ∧
    (∀ fuel, (register_proc_n t0 parent nm calls).parent_proc fuel ⟨parent, nm, 0⟩ =
      (match (register_proc_n t0 parent nm calls).parentTypeOpt parent with
       | none => none
       | some j => (register_proc_n t0 parent nm calls).get_proc fuel j nm)) ∧
    (∀ (u : ObjectTree) (fuel i : Nat) (r : ProcRef), u.get_proc fuel i nm = some r →
      ∃ nd tp, u.node r.ty = some nd ∧ assocGet nm nd.procs = some tp ∧
        r.idx = tp.value.length - 1) ∧
    (∀ (u u1 : ObjectTree) (loc : Location) (segs : List String) (len : Nat)
        (params : List Parameter) (cd : Code) (parent' : Nat) (pname : String),
      u.get_from_path loc segs len = (u1, .ok (parent', pname, [])) →
      is_proc_decl pname = false → is_var_decl pname = false →
      u.add_proc loc segs len params cd =
        u1.register_proc loc parent' pname none params cd) := by
  have hslot0 : t0.procSlot parent nm = none := by
    unfold ObjectTree.procSlot
    rw [hnode]
    exact hfresh
  have hmain := (register_proc_n_value parent nm calls t0 node0 hnode).2 hne
  rw [hslot0] at hmain
  simp only [Option.getD] at hmain
  have hval : ((register_proc_n t0 parent nm calls).procSlot parent nm).map
      (fun tp => tp.value) = some (calls.map payloadValue) := by
    simpa using hmain
  refine ⟨hval, ?_, ?_, ?_, fun u fuel i r h => get_proc_anchor u nm fuel i r h, ?_⟩
  · intro i hi
    rw [procRefVal_eq]
    cases hs : (register_proc_n t0 parent nm calls).procSlot parent nm with
    | none => rw [hs] at hval; simp at hval
    | some tp =>
      rw [hs] at hval
      have htv : tp.value = calls.map payloadValue := by simpa using hval
      simp only [Option.bind]
      show tp.value.get? i = _
      rw [htv, List.get?_map]
  · intro i hi fuel
    rfl
  · intro fuel
    rfl
  · intro u u1 loc segs len params cd parent' pname hw hp hv
    show (match u.get_from_path loc segs len with
      | (t1, Except.error e) => (t1, Except.error e)
      | (t1, Except.ok (parent2, pname2, rest)) =>
        if is_proc_decl pname2 then
          match rest with
          | [] => (t1, Except.error ⟨loc, "proc must have a name"⟩)
          | proc_name :: rest2 =>
            match rest2 with
            | other :: _ =>
              (t1, Except.error ⟨loc,
                "proc name must be a single identifier (spurious \"" ++ other ++ "\")"⟩)
            | [] =>
              t1.register_proc loc parent2 proc_name (some (pname2 = "verb")) params cd
        else if is_var_decl pname2 then
          (t1, Except.error ⟨loc, "var looks like a proc"⟩)
        else
          match rest with
          | other :: _ =>
            (t1, Except.error ⟨loc,
              "proc name must be a single identifier (spurious \"" ++ other ++ "\")"⟩)
          | [] => t1.register_proc loc parent2 pname2 none params cd) = _
    rw [hw]
    show (if is_proc_decl pname then _ else if is_var_decl pname then _
      else _) = _
    rw [hp, hv]
    simp

theorem c4_proc_override_chain_witness :
    (exTreeC4.node 2 = some exNodeItemC4 ∧
      assocGet "attack" exNodeItemC4.procs = none ∧
      exCallsC4 ≠ [] ∧
      ((exTreeC4'.procSlot 2 "attack").map (fun tp => tp.value) =
        some (exCallsC4.map payloadValue)) ∧
      exTreeC4'.procRefVal ⟨2, "attack", 1⟩ = (exCallsC4.get? 1).map payloadValue ∧
      exTreeC4'.parent_proc 5 ⟨2, "attack", 1⟩ = some ⟨2, "attack", 0⟩) ∧
    (exTreeC4'.get_proc 5 2 "attack" = some ⟨2, "attack", 1⟩ ∧
      ∃ nd tp, exTreeC4'.node (⟨2, "attack", 1⟩ : ProcRef).ty = some nd ∧
        assocGet "attack" nd.procs = some tp ∧
        (⟨2, "attack", 1⟩ : ProcRef).idx = tp.value.length - 1) ∧
    (exTreeC4.get_from_path 55 ["obj", "item", "zap"] 3 = (exBridgeU1, .ok (2, "zap", [])) ∧
      exTreeC4.add_proc 55 ["obj", "item", "zap"] 3 [9] .disabled =
        exBridgeU1.register_proc 55 2 "zap" none [9] .disabled) := by
  have h := c4_proc_override_chain exTreeC4 2 "attack" exNodeItemC4 exCallsC4
    (by rfl) (by rfl) (by decide)
  exact ⟨⟨by rfl, by rfl, by decide, h.1, h.2.1 1 (by decide), h.2.2.1 0 (by decide) 5⟩,
    ⟨by rfl, h.2.2.2.2.1 exTreeC4' 5 2 ⟨2, "attack", 1⟩ (by rfl)⟩,
    ⟨by rfl, h.2.2.2.2.2 exTreeC4 exBridgeU1 55 ["obj", "item", "zap"] 3 [9] .disabled 2 "zap"
      (by rfl) (by rfl) (by rfl)⟩⟩

-- ----------------------------------------------------------------------------
-- C9: proc override lists are never empty in API-built trees

theorem assocGet_mem {α : Type} (k : String) (m : List (String × α)) (v : α)
    (h : assocGet k m = some v) : (k, v) ∈ m := by
  induction m with
  | nil => simp [assocGet] at h
  | cons p rest ih =>
    obtain ⟨k', v'⟩ := p
    by_cases hk : k' = k
    · subst hk
      have : v' = v := by simpa [assocGet] using h
      simp [this]
    · simp only [assocGet, if_neg hk] at h
      exact List.mem_cons_of_mem _ (ih h)

theorem ProcsOK_default : ProcsOK ObjectTree.default := by
  intro n hn pr hpr
  simp only [ObjectTree.default, List.mem_singleton] at hn
  subst hn
  simp at hpr

theorem ProcsOK_updateNode (t : ObjectTree) (i : Nat) (f : Type' → Type')
    (ht : ProcsOK t)
    (hf : ∀ n, (∀ pr ∈ n.procs, (pr.2 : TypeProc).value ≠ []) →
      ∀ pr ∈ (f n).procs, (pr.2 : TypeProc).value ≠ []) :
    ProcsOK (t.updateNode i f) := by
  intro n hn pr hpr
  rcases mem_listModify f i t.graph_nodes n hn with h | ⟨a, ha, rfl⟩
  · exact ht n h pr hpr
  · exact hf a (ht a ha) pr hpr

theorem ProcsOK_subtype_or_add (t : ObjectTree) (loc : Location) (parent : Nat)
    (child : String) (len : Nat) (ht : ProcsOK t) :
    ProcsOK (t.subtype_or_add loc parent child len).1 := by
  cases h : t.find_neighbor parent child with
  | some c =>
    rw [subtype_or_add_found t loc parent child len c h]
    apply ProcsOK_updateNode _ _ _ ht
    intro n hok pr hpr
    by_cases hs : n.location_specificity > len
    · rw [if_pos hs] at hpr
      exact hok pr hpr
    · rw [if_neg hs] at hpr
      exact hok pr hpr
  | none =>
    rw [subtype_or_add_fresh t loc parent child len h]
    intro n hn pr hpr
    rcases List.mem_append.mp hn with h1 | h1
    · exact ht n h1 pr hpr
    · have hn' := List.mem_singleton.mp h1
      rw [hn'] at hpr
      simp at hpr

theorem ProcsOK_get_from_path_loop (loc : Location) (len : Nat) :
    ∀ (segs : List String) (t : ObjectTree) (current : Nat) (last : String), ProcsOK t →
      ProcsOK (t.get_from_path_loop loc len current last segs).1 := by
  intro segs
  induction segs with
  | nil => intro t current last ht; exact ht
  | cons each rest ih =>
    intro t current last ht
    show ProcsOK (if is_decl each then
        ((t.subtype_or_add loc current last len).1,
         (t.subtype_or_add loc current last len).2, each, rest)
      else (t.subtype_or_add loc current last len).1.get_from_path_loop loc len
        (t.subtype_or_add loc current last len).2 each rest).1
    by_cases hd : is_decl each = true
    · rw [if_pos hd]
      exact ProcsOK_subtype_or_add t loc current last len ht
    · rw [if_neg hd]
      exact ih _ _ _ (ProcsOK_subtype_or_add t loc current last len ht)

theorem ProcsOK_get_from_path (t : ObjectTree) (loc : Location) (path : List String)
    (len : Nat) (ht : ProcsOK t) : ProcsOK (t.get_from_path loc path len).1 := by
  cases path with
  | nil => exact ht
  | cons last rest =>
    show ProcsOK (if is_decl last then (t, Except.ok (0, last, rest))
      else ((t.get_from_path_loop loc len 0 last rest).1,
        Except.ok ((t.get_from_path_loop loc len 0 last rest).2.1,
          (t.get_from_path_loop loc len 0 last rest).2.2.1,
          (t.get_from_path_loop loc len 0 last rest).2.2.2))).1
    by_cases hd : is_decl last = true
    · rw [if_pos hd]; exact ht
    · rw [if_neg hd]
      exact ProcsOK_get_from_path_loop loc len rest t 0 last ht

theorem ProcsOK_register_var_finish (t : ObjectTree) (loc : Location) (parent : Nat)
    (d st co tm : Bool) (prev : String) (rest : List String) (comment : DocCollection)
    (sfx : VarSuffix) (ht : ProcsOK t) :
    ProcsOK (t.register_var_finish loc parent d st co tm prev rest comment sfx).1 := by
  apply ProcsOK_updateNode _ _ _ ht
  intro n hok pr hpr
  exact hok pr hpr

theorem ProcsOK_register_var (t : ObjectTree) (loc : Location) (parent : Nat) (prev : String)
    (rest : List String) (comment : DocCollection) (sfx : VarSuffix) (ht : ProcsOK t) :
    ProcsOK (t.register_var loc parent prev rest comment sfx).1 := by
  unfold ObjectTree.register_var
  by_cases hv : is_var_decl prev = true
  · rw [if_pos hv]
    cases rest with
    | nil => exact ht
    | cons p r =>
      show ProcsOK (match var_quals false false false p r with
        | none => (t, Except.ok none)
        | some (a, b, c, prev', rest') =>
          t.register_var_finish loc parent true a b c prev' rest' comment sfx).1
      cases hq : var_quals false false false p r with
      | none => exact ht
      | some flags =>
        obtain ⟨a, b, c, prev', rest'⟩ := flags
        exact ProcsOK_register_var_finish t loc parent true a b c prev' rest' comment sfx ht
  · rw [if_neg hv]
    by_cases hp : is_proc_decl prev = true
    · rw [if_pos hp]; exact ht
    · rw [if_neg hp]
      exact ProcsOK_register_var_finish t loc parent false false false false prev rest
        comment sfx ht

theorem ProcsOK_register_proc (t : ObjectTree) (loc : Location) (parent : Nat) (nm : String)
    (iv : Option Bool) (ps : List Parameter) (cd : Code) (ht : ProcsOK t) :
    ProcsOK (t.register_proc loc parent nm iv ps cd).1 := by
  cases hn : t.node parent with
  | none =>
    show ProcsOK (match t.node parent with
      | none => (t, Except.ok 0)
      | some node => _).1
    rw [hn]
    exact ht
  | some node =>
    rw [register_proc_red t loc parent nm iv ps cd node hn]
    apply ProcsOK_updateNode _ _ _ ht
    intro n hok pr hpr
    rcases mem_lhmInsertOrReplace nm _ n.procs pr hpr with h | h
    · exact hok pr h
    · rw [h, procSlotPush_value]
      simp

theorem ProcsOK_add_entry (t : ObjectTree) (loc : Location) (path : List String) (len : Nat)
    (comment : DocCollection) (sfx : VarSuffix) (ht : ProcsOK t) :
    ProcsOK (t.add_entry loc path len comment sfx).1 := by
  unfold ObjectTree.add_entry
  cases hg : t.get_from_path loc path len with
  | mk t1 r =>
    have ht1 : ProcsOK t1 := by
      have h := ProcsOK_get_from_path t loc path len ht
      rw [hg] at h
      exact h
    cases r with
    | error e => exact ht1
    | ok trip =>
      obtain ⟨parent, child, rest⟩ := trip
      show ProcsOK (if is_var_decl child then
          (match t1.register_var loc parent "var" rest comment sfx with
            | (t2, Except.error e) => (t2, Except.error e)
            | (t2, Except.ok a) => (t2, Except.ok ()))
        else if is_proc_decl child then (t1, Except.ok ())
        else ((t1.subtype_or_add loc parent child len).1.updateNode
            (t1.subtype_or_add loc parent child len).2
            (fun n => { n with docs := n.docs ++ comment }), Except.ok ())).1
      by_cases hv : is_var_decl child = true
      · rw [if_pos hv]
        cases hr : t1.register_var loc parent "var" rest comment sfx with
        | mk t2 r2 =>
          have ht2 : ProcsOK t2 := by
            have h := ProcsOK_register_var t1 loc parent "var" rest comment sfx ht1
            rw [hr] at h
            exact h
          cases r2 with
          | error e => exact ht2
          | ok o => exact ht2
      · rw [if_neg hv]
        by_cases hp : is_proc_decl child = true
        · rw [if_pos hp]; exact ht1
        · rw [if_neg hp]
          apply ProcsOK_updateNode _ _ _
            (ProcsOK_subtype_or_add t1 loc parent child len ht1)
          intro n hok pr hpr
          exact hok pr hpr

theorem ProcsOK_add_var (t : ObjectTree) (loc : Location) (path : List String) (len : Nat)
    (expr : Expression) (comment : DocCollection) (sfx : VarSuffix) (ht : ProcsOK t) :
    ProcsOK (t.add_var loc path len expr comment sfx).1 := by
  unfold ObjectTree.add_var
  cases hg : t.get_from_path loc path len with
  | mk t1 r =>
    have ht1 : ProcsOK t1 := by
      have h := ProcsOK_get_from_path t loc path len ht
      rw [hg] at h
      exact h
    cases r with
    | error e => exact ht1
    | ok trip =>
      obtain ⟨parent, initial, rest⟩ := trip
      show ProcsOK (match t1.register_var loc parent initial rest comment sfx with
        | (t2, Except.error e) => (t2, Except.error e)
        | (t2, Except.ok none) => (t2, Except.error ⟨loc, "var must have a name"⟩)
        | (t2, Except.ok (some key)) =>
          (t2.updateNode parent (fun n =>
            { n with vars := lhmUpdate key (fun tv' =>
                { tv' with value := { tv'.value with
                    location := loc,
                    expression := some expr } }) n.vars }), Except.ok ())).1
      cases hr : t1.register_var loc parent initial rest comment sfx with
      | mk t2 r2 =>
        have ht2 : ProcsOK t2 := by
          have h := ProcsOK_register_var t1 loc parent initial rest comment sfx ht1
          rw [hr] at h
          exact h
        cases r2 with
        | error e => exact ht2
        | ok o =>
          cases o with
          | none => exact ht2
          | some key =>
            apply ProcsOK_updateNode _ _ _ ht2
            intro n hok pr hpr
            exact hok pr hpr

theorem ProcsOK_add_proc (t : ObjectTree) (loc : Location) (path : List String) (len : Nat)
    (params : List Parameter) (cd : Code) (ht : ProcsOK t) :
    ProcsOK (t.add_proc loc path len params cd).1 := by
  unfold ObjectTree.add_proc
  cases hg : t.get_from_path loc path len with
  | mk t1 r =>
    have ht1 : ProcsOK t1 := by
      have h := ProcsOK_get_from_path t loc path len ht
      rw [hg] at h
      exact h
    cases r with
    | error e => exact ht1
    | ok trip =>
      obtain ⟨parent, pname, rest⟩ := trip
      clear hg
      show ProcsOK (if is_proc_decl pname then
          (match rest with
            | [] => (t1, Except.error ⟨loc, "proc must have a name"⟩)
            | proc_name :: rest2 =>
              match rest2 with
              | other :: _ => (t1, Except.error ⟨loc, "proc name must be a single identifier (spurious \"" ++ other ++ "\")"⟩)
              | [] => t1.register_proc loc parent proc_name (some (pname = "verb")) params cd)
        else if is_var_decl pname then (t1, Except.error ⟨loc, "var looks like a proc"⟩)
        else match rest with
          | other :: _ => (t1, Except.error ⟨loc, "proc name must be a single identifier (spurious \"" ++ other ++ "\")"⟩)
          | [] => t1.register_proc loc parent pname none params cd).1
      by_cases hp : is_proc_decl pname = true
      · rw [if_pos hp]
        cases rest with
        | nil => exact ht1
        | cons proc_name rest2 =>
          cases rest2 with
          | cons other more => exact ht1
          | nil =>
            exact ProcsOK_register_proc t1 loc parent proc_name _ params cd ht1
      · rw [if_neg hp]
        by_cases hv : is_var_decl pname = true
        · rw [if_pos hv]; exact ht1
        · rw [if_neg hv]
          cases rest with
          | cons other more => exact ht1
          | nil => exact ProcsOK_register_proc t1 loc parent pname none params cd ht1

theorem ProcsOK_applyOp (t : ObjectTree) (op : BuilderOp) (ht : ProcsOK t) :
    ProcsOK (applyOp t op) := by
  cases op with
  | entry loc path len c s => exact ProcsOK_add_entry t loc path len c s ht
  | var loc path len e c s => exact ProcsOK_add_var t loc path len e c s ht
  | proc loc path len p cd => exact ProcsOK_add_proc t loc path len p cd ht

theorem ProcsOK_foldl (ops : List BuilderOp) :
    ∀ t : ObjectTree, ProcsOK t → ProcsOK (ops.foldl applyOp t) := by
  induction ops with
  | nil => intro t ht; exact ht
  | cons op rest ih => intro t ht; exact ih _ (ProcsOK_applyOp t op ht)

/-- C9: in every tree built solely through the public builder API, every
proc name present in a type's procs map has a non-empty list of `ProcValue`
records (registration appends a value in the same operation that creates
the slot), so `get_proc`'s anchor index — the list length minus one — never
underflows and always denotes a valid entry. -/
theorem c9_proc_lists_nonempty (ops : List BuilderOp) :
    ProcsOK (buildTree ops) ∧
    (∀ (t : ObjectTree), ProcsOK t → ∀ (fuel i : Nat) (nm : String) (r : ProcRef),
      t.get_proc fuel i nm = some r →
      ∃ nd tp, t.node r.ty = some nd ∧ assocGet nm nd.procs = some tp ∧
        tp.value ≠ [] ∧ r.idx + 1 = tp.value.length) := by
  refine ⟨ProcsOK_foldl ops ObjectTree.default ProcsOK_default, ?_⟩
  intro t ht fuel i nm r h
  obtain ⟨nd, tp, hnd, htp, hidx⟩ := get_proc_anchor t nm fuel i r h
  have hmem : nd ∈ t.graph_nodes := List.get?_mem hnd
  have hne : tp.value ≠ [] := ht nd hmem (nm, tp) (assocGet_mem nm nd.procs tp htp)
  have hpos : 0 < tp.value.length := List.length_pos.mpr hne
  exact ⟨nd, tp, hnd, htp, hne, by omega⟩

theorem c9_proc_lists_nonempty_witness :
    ProcsOK (buildTree exOpsC9) ∧
    ((buildTree exOpsC9).get_proc 5 1 "attack" = some ⟨1, "attack", 1⟩ ∧
      ∃ nd tp, (buildTree exOpsC9).node 1 = some nd ∧
        assocGet "attack" nd.procs = some tp ∧
        tp.value ≠ [] ∧ 1 + 1 = tp.value.length) :=
  ⟨(c9_proc_lists_nonempty exOpsC9).1,
   by rfl,
   (c9_proc_lists_nonempty exOpsC9).2 (buildTree exOpsC9)
     (c9_proc_lists_nonempty exOpsC9).1 5 1 "attack" ⟨1, "attack", 1⟩ (by rfl)⟩

-- ----------------------------------------------------------------------------
-- The assign_parent_types fold: frame and write lemmas

theorem apt_step_red (acc : ObjectTree × List DMError) (path : String) (ti : Nat)
    (node : Type') (hnode : acc.1.node ti = some node) :
    apt_step acc (path, ti) =
      (acc.1.updateNode ti (fun n =>
        { n with parent_type := (apt_idx acc.1.types path node).1 }),
       acc.2 ++ (apt_idx acc.1.types path node).2) := by
  show (match acc.1.node ti with
    | none => acc
    | some nd =>
      (acc.1.updateNode ti fun n => { n with parent_type := (apt_idx acc.1.types path nd).1 },
       acc.2 ++ (apt_idx acc.1.types path nd).2)) = _
  rw [hnode]

theorem apt_step_types (acc : ObjectTree × List DMError) (pr : String × Nat) :
    (apt_step acc pr).1.types = acc.1.types := by
  unfold apt_step
  cases h : acc.1.node pr.2 with
  | none => rfl
  | some node => rfl

theorem stripPT_set (n : Type') (x : Nat) : stripPT { n with parent_type := x } = stripPT n :=
  rfl

theorem apt_step_strip (acc : ObjectTree × List DMError) (pr : String × Nat) (j : Nat) :
    ((apt_step acc pr).1.node j).map stripPT = (acc.1.node j).map stripPT := by
  unfold apt_step
  cases h : acc.1.node pr.2 with
  | none => rfl
  | some node =>
    show ((acc.1.updateNode pr.2 _).node j).map stripPT = _
    rw [node_updateNode]
    by_cases hj : j = pr.2
    · rw [if_pos hj]
      cases hn : acc.1.node j with
      | none => rfl
      | some nj => rfl
    · rw [if_neg hj]

theorem apt_step_node_other (acc : ObjectTree × List DMError) (pr : String × Nat) (j : Nat)
    (hj : j ≠ pr.2) : (apt_step acc pr).1.node j = acc.1.node j := by
  unfold apt_step
  cases h : acc.1.node pr.2 with
  | none => rfl
  | some node =>
    show (acc.1.updateNode pr.2 _).node j = _
    rw [node_updateNode, if_neg hj]

theorem apt_foldl_types (l : List (String × Nat)) :
    ∀ acc, ((l.foldl apt_step acc).1).types = acc.1.types := by
  induction l with
  | nil => intro acc; rfl
  | cons pr rest ih =>
    intro acc
    rw [List.foldl_cons, ih, apt_step_types]

theorem apt_foldl_strip (l : List (String × Nat)) :
    ∀ acc j, (((l.foldl apt_step acc).1).node j).map stripPT = (acc.1.node j).map stripPT := by
  induction l with
  | nil => intro acc j; rfl
  | cons pr rest ih =>
    intro acc j
    rw [List.foldl_cons, ih, apt_step_strip]

theorem apt_foldl_untouched (l : List (String × Nat)) :
    ∀ acc j, (∀ pr ∈ l, pr.2 ≠ j) → ((l.foldl apt_step acc).1).node j = acc.1.node j := by
  induction l with
  | nil => intro acc j _; rfl
  | cons pr rest ih =>
    intro acc j h
    have hne : j ≠ pr.2 := fun e => absurd e.symm (h pr (by simp))
    rw [List.foldl_cons, ih _ _ (fun q hq => h q (by simp [hq])),
      apt_step_node_other acc pr j hne]

theorem apt_foldl_errs_mono (l : List (String × Nat)) :
    ∀ acc e, e ∈ acc.2 → e ∈ (l.foldl apt_step acc).2 := by
  induction l with
  | nil => intro acc e he; exact he
  | cons pr rest ih =>
    intro acc e he
    rw [List.foldl_cons]
    apply ih
    unfold apt_step
    cases h : acc.1.node pr.2 with
    | none => exact he
    | some node => exact List.mem_append.mpr (Or.inl he)

theorem stripPT_vars (n1 n2 : Type') (h : stripPT n1 = stripPT n2) : n1.vars = n2.vars := by
  have h2 := congrArg Type'.vars h
  exact h2

theorem stripPT_location (n1 n2 : Type') (h : stripPT n1 = stripPT n2) :
    n1.location = n2.location := by
  have h2 := congrArg Type'.location h
  exact h2

theorem apt_choose_congr (path : String) (n1 n2 : Type') (hv : n1.vars = n2.vars)
    (hl : n1.location = n2.location) : apt_choose path n1 = apt_choose path n2 := by
  unfold apt_choose
  rw [hv, hl]

theorem apt_idx_congr (types : List (String × Nat)) (path : String) (n1 n2 : Type')
    (hv : n1.vars = n2.vars) (hl : n1.location = n2.location) :
    apt_idx types path n1 = apt_idx types path n2 := by
  unfold apt_idx
  rw [apt_choose_congr path n1 n2 hv hl]

/-- The effect of the whole `assign_parent_types` pass on one registered
type: its node's `parent_type` is set to the per-type computation's result,
everything else about the node is untouched, and the errors the computation
registers appear in the pass's output. -/
theorem apt_master (t : ObjectTree) (l1 l2 : List (String × Nat)) (path : String) (ti : Nat)
    (node : Type')
    (hsplit : t.types = l1 ++ (path, ti) :: l2)
    (hl2 : ∀ pr ∈ l2, pr.2 ≠ ti)
    (hnode : t.node ti = some node) :
    ∃ node', (t.assign_parent_types).1.node ti = some node' ∧
      node'.parent_type = (apt_idx t.types path node).1 ∧
      stripPT node' = stripPT node ∧
      ∀ e ∈ (apt_idx t.types path node).2, e ∈ (t.assign_parent_types).2 := by
  unfold ObjectTree.assign_parent_types
  set R := apt_idx t.types path node with hR
  rw [hsplit, List.foldl_append, List.foldl_cons]
  have htypes1 : ((l1.foldl apt_step (t, [])).1).types = t.types := apt_foldl_types l1 (t, [])
  have hstrip1 : (((l1.foldl apt_step (t, [])).1).node ti).map stripPT =
      ((t.node ti).map stripPT) := apt_foldl_strip l1 (t, []) ti
  rw [hnode] at hstrip1
  cases hn1 : ((l1.foldl apt_step (t, [])).1).node ti with
  | none => rw [hn1] at hstrip1; simp at hstrip1
  | some node1 =>
    rw [hn1] at hstrip1
    have hstrip : stripPT node1 = stripPT node := by simpa using hstrip1
    have hcongr : apt_idx ((l1.foldl apt_step (t, [])).1).types path node1 = R := by
      rw [htypes1, hR]
      exact apt_idx_congr t.types path node1 node (stripPT_vars _ _ hstrip)
        (stripPT_location _ _ hstrip)
    have hred := apt_step_red (l1.foldl apt_step (t, [])) path ti node1 hn1
    rw [hcongr] at hred
    refine ⟨{ node1 with parent_type := R.1 }, ?_, rfl, ?_, ?_⟩
    · rw [apt_foldl_untouched l2 _ ti hl2, hred, node_updateNode, if_pos rfl, hn1]
      rfl
    · rw [stripPT_set]
      exact hstrip
    · intro e he
      apply apt_foldl_errs_mono l2
      rw [hred]
      exact List.mem_append.mpr (Or.inr he)

-- ----------------------------------------------------------------------------
-- Evaluating the per-type parent choice

theorem apt_choose_nonbuiltin (path : String) (node : Type')
    (hb2 : path ≠ "/atom") (hb3 : path ≠ "/turf") (hb4 : path ≠ "/area")
    (hb5 : path ≠ "/obj") (hb6 : path ≠ "/mob") :
    apt_choose path node =
      (match assocGet "parent_type" node.vars with
       | none => (lexicalParent path, node.location, [])
       | some tv => apt_override (lexicalParent path) tv) := by
  unfold apt_choose
  rw [if_neg hb2,
    if_neg (show ¬(path = "/turf" ∨ path = "/area") by simp [hb3, hb4]),
    if_neg (show ¬(path = "/obj" ∨ path = "/mob") by simp [hb5, hb6])]

theorem apt_choose_novar (path : String) (node : Type')
    (hb2 : path ≠ "/atom") (hb3 : path ≠ "/turf") (hb4 : path ≠ "/area")
    (hb5 : path ≠ "/obj") (hb6 : path ≠ "/mob")
    (hnovar : assocGet "parent_type" node.vars = none) :
    apt_choose path node = (lexicalParent path, node.location, []) := by
  rw [apt_choose_nonbuiltin path node hb2 hb3 hb4 hb5 hb6, hnovar]

theorem apt_override_ok (base : String) (tv : TypeVar) (e : Expression) (c : Constant)
    (s : String) (hexpr : tv.value.expression = some e)
    (heval : e.simple_evaluate tv.value.location = .ok c)
    (hc : constantPath c = some s) :
    apt_override base tv = (s, tv.value.location, []) := by
  show (match tv.value.expression with
    | none => (base, tv.value.location, [])
    | some expr =>
      match expr.simple_evaluate tv.value.location with
      | Except.ok (Constant.str s') => (s', tv.value.location, [])
      | Except.ok (Constant.prefab p pvars) =>
        if pvars.isEmpty then
          (p.foldl (fun acc piece => acc ++ "/" ++ piece) "", tv.value.location, [])
        else
          (base, tv.value.location,
           [DMError.mk tv.value.location
             ("bad parent_type: " ++ (Constant.prefab p pvars).display)])
      | Except.ok c' => (base, tv.value.location,
          [DMError.mk tv.value.location ("bad parent_type: " ++ Constant.display c')])
      | Except.error err => (base, tv.value.location, [err])) = _
  rw [hexpr]
  show (match e.simple_evaluate tv.value.location with
    | Except.ok (Constant.str s') => (s', tv.value.location, [])
    | Except.ok (Constant.prefab p pvars) =>
      if pvars.isEmpty then
        (p.foldl (fun acc piece => acc ++ "/" ++ piece) "", tv.value.location, [])
      else
        (base, tv.value.location,
         [DMError.mk tv.value.location
           ("bad parent_type: " ++ (Constant.prefab p pvars).display)])
    | Except.ok c' => (base, tv.value.location,
        [DMError.mk tv.value.location ("bad parent_type: " ++ Constant.display c')])
    | Except.error err => (base, tv.value.location, [err])) = _
  rw [heval]
  cases c with
  | str s' =>
    have hs : s' = s := by simpa [constantPath] using hc
    rw [hs]
  | prefab p pv =>
    by_cases hpv : pv.isEmpty = true
    · have hs : (p.foldl (fun acc piece => acc ++ "/" ++ piece) "") = s := by
        simpa [constantPath, hpv] using hc
      show (if pv.isEmpty then
          (p.foldl (fun acc piece => acc ++ "/" ++ piece) "", tv.value.location, [])
        else (base, tv.value.location,
          [DMError.mk tv.value.location
            ("bad parent_type: " ++ (Constant.prefab p pv).display)])) = _
      rw [if_pos hpv, hs]
    · exfalso
      simp [constantPath, hpv] at hc
  | other d =>
    exfalso
    simp [constantPath] at hc

theorem apt_choose_override (path : String) (node : Type') (tv : TypeVar) (e : Expression)
    (c : Constant) (s : String)
    (hb2 : path ≠ "/atom") (hb3 : path ≠ "/turf") (hb4 : path ≠ "/area")
    (hb5 : path ≠ "/obj") (hb6 : path ≠ "/mob")
    (hvar : assocGet "parent_type" node.vars = some tv)
    (hexpr : tv.value.expression = some e)
    (heval : e.simple_evaluate tv.value.location = .ok c)
    (hc : constantPath c = some s) :
    apt_choose path node = (s, tv.value.location, []) := by
  rw [apt_choose_nonbuiltin path node hb2 hb3 hb4 hb5 hb6, hvar]
  exact apt_override_ok (lexicalParent path) tv e c s hexpr heval hc

theorem apt_choose_loc_novar (path : String) (node : Type')
    (h : assocGet "parent_type" node.vars = none) :
    (apt_choose path node).2.1 = node.location := by
  unfold apt_choose
  by_cases h1 : path = "/atom"
  · rw [if_pos h1]
  · rw [if_neg h1]
    by_cases h2 : path = "/turf" ∨ path = "/area"
    · rw [if_pos h2]
    · rw [if_neg h2]
      by_cases h3 : path = "/obj" ∨ path = "/mob"
      · rw [if_pos h3]
      · rw [if_neg h3, h]

theorem apt_override_loc (base : String) (tv : TypeVar) :
    (apt_override base tv).2.1 = tv.value.location := by
  unfold apt_override
  dsimp only
  split
  · rfl
  · split
    · rfl
    · split
      · rfl
      · rfl
    · rfl
    · rfl

theorem apt_choose_loc_builtin (path : String) (node : Type')
    (hb : path = "/atom" ∨ path = "/turf" ∨ path = "/area" ∨ path = "/obj" ∨
      path = "/mob") :
    (apt_choose path node).2.1 = node.location := by
  rcases hb with h | h | h | h | h <;> subst h <;> rfl

theorem apt_choose_loc_var (path : String) (node : Type') (tv : TypeVar)
    (hb2 : path ≠ "/atom") (hb3 : path ≠ "/turf") (hb4 : path ≠ "/area")
    (hb5 : path ≠ "/obj") (hb6 : path ≠ "/mob")
    (hvar : assocGet "parent_type" node.vars = some tv) :
    (apt_choose path node).2.1 = tv.value.location := by
  rw [apt_choose_nonbuiltin path node hb2 hb3 hb4 hb5 hb6, hvar]
  exact apt_override_loc (lexicalParent path) tv

theorem apt_idx_eval (types : List (String × Nat)) (path : String) (node : Type')
    (s : String) (loc : Location) (es : List DMError)
    (hpath : path ≠ "/datum") (hch : apt_choose path node = (s, loc, es)) :
    apt_idx types path node =
      (match assocGet s types with
       | some i => (i, es)
       | none => (0, es ++ [⟨loc, "bad parent type for " ++ path ++ ": " ++ s⟩])) := by
  unfold apt_idx
  rw [if_neg hpath, hch]

-- ----------------------------------------------------------------------------
-- C2

/-- C2 counterexample: `/foo` is a registered top-level type, not one of the
hardcoded built-ins, with no `parent_type` variable — yet finalization sets
its semantic parent to the `/datum` node (node 1), not to the root
(node 0). -/
theorem c2_counterexample :
    ((exTreeA.node 5).map (fun n => n.path)) = some "/foo" ∧
    ((exTreeA.node 5).map (fun n => (assocGet "parent_type" n.vars).isNone)) = some true ∧
    exTreeAFin.parentIdxOf 5 = some 1 ∧
    ((exTreeAFin.node 1).map (fun n => n.path)) = some "/datum" ∧
    ((exTreeAFin.node 0).map (fun n => n.path)) = some "" ∧ (1 : Nat) ≠ 0 :=
  ⟨by rfl, by rfl, by rfl, by rfl, by rfl, by decide⟩

/-- C2 (amended): a registered non-root type whose path is none of the
hardcoded built-ins and which has no `parent_type` variable gets as its
semantic parent the type at its path with the last segment removed — and at
`/datum` (not the root) when removing the last segment leaves no remaining
segment. -/
theorem c2_lexical_parent_default (t : ObjectTree) (l1 l2 : List (String × Nat))
    (path : String) (ti : Nat) (node : Type') (j : Nat)
    (hsplit : t.types = l1 ++ (path, ti) :: l2)
    (hl2 : ∀ pr ∈ l2, pr.2 ≠ ti)
    (hnode : t.node ti = some node)
    (hb1 : path ≠ "/datum") (hb2 : path ≠ "/atom") (hb3 : path ≠ "/turf")
    (hb4 : path ≠ "/area") (hb5 : path ≠ "/obj") (hb6 : path ≠ "/mob")
    (hnovar : assocGet "parent_type" node.vars = none)
    (hlook : assocGet (lexicalParent path) t.types = some j) :
    ∃ node', (t.assign_parent_types).1.node ti = some node' ∧
      node'.parent_type = j ∧ stripPT node' = stripPT node := by
  obtain ⟨node', h1, h2, h3, _⟩ := apt_master t l1 l2 path ti node hsplit hl2 hnode
  refine ⟨node', h1, ?_, h3⟩
  rw [h2, apt_idx_eval t.types path node (lexicalParent path) node.location [] hb1
    (apt_choose_novar path node hb2 hb3 hb4 hb5 hb6 hnovar), hlook]

theorem c2_lexical_parent_default_witness :
    (exTreeA.types = [("/atom", 2), ("/atom/movable", 3), ("/baz", 7), ("/datum", 1)] ++
      ("/foo", 5) :: [("/foo/bar", 6), ("/mob", 4)] ∧
     (∀ pr ∈ [("/foo/bar", 6), ("/mob", 4)], (pr : String × Nat).2 ≠ 5) ∧
     exTreeA.node 5 = some exNodeFoo ∧
     assocGet "parent_type" exNodeFoo.vars = none ∧
     lexicalParent "/foo" = "/datum" ∧
     assocGet (lexicalParent "/foo") exTreeA.types = some 1) ∧
    ∃ node', (exTreeA.assign_parent_types).1.node 5 = some node' ∧
      node'.parent_type = 1 ∧ stripPT node' = stripPT exNodeFoo :=
  ⟨⟨by rfl, by decide, by rfl, by rfl, by rfl, by rfl⟩,
   c2_lexical_parent_default exTreeA
     [("/atom", 2), ("/atom/movable", 3), ("/baz", 7), ("/datum", 1)]
     [("/foo/bar", 6), ("/mob", 4)] "/foo" 5 exNodeFoo 1
     (by rfl) (by decide) (by rfl) (by decide) (by decide) (by decide) (by decide)
     (by decide) (by decide) (by rfl) (by rfl)⟩

-- ----------------------------------------------------------------------------
-- C1

/-- C1 counterexample: `/mob` declares a `parent_type` variable whose
expression evaluates to the string constant `"/datum"`, and `/datum` is
registered (node 1) — yet finalization assigns `/mob` the hardcoded parent
`/atom/movable` (node 3): for the hardcoded built-in paths the override is
ignored, contradicting the claim's "including for the built-in paths". -/
theorem c1_counterexample :
    ((exTreeA.varSlot 4 "parent_type").map (fun tv =>
      tv.value.expression.map (fun e => e.simple_evaluate tv.value.location))) =
      some (some (Except.ok (Constant.str "/datum"))) ∧
    assocGet "/datum" exTreeA.types = some 1 ∧
    ((exTreeA.node 4).map (fun n => n.path)) = some "/mob" ∧
    exTreeAFin.parentIdxOf 4 = some 3 ∧
    ((exTreeAFin.node 3).map (fun n => n.path)) = some "/atom/movable" ∧ (3 : Nat) ≠ 1 :=
  ⟨by rfl, by rfl, by rfl, by rfl, by rfl, by decide⟩

/-- C1 (amended): for a registered type whose path is none of the hardcoded
built-ins and which declares a `parent_type` variable with a syntactic
expression evaluating to a string constant, or to a prefab constant with no
attached variable overrides, finalization uses that evaluated path as the
type's semantic parent path instead of the lexical-parent default; for the
hardcoded built-in paths (`/datum`, `/atom`, `/turf`, `/area`, `/obj`,
`/mob`) the hardcoded relationship wins and the override is ignored. -/
theorem c1_parent_type_override (t : ObjectTree) (l1 l2 : List (String × Nat))
    (path : String) (ti : Nat) (node : Type') (tv : TypeVar) (e : Expression)
    (c : Constant) (s : String) (j : Nat)
    (hsplit : t.types = l1 ++ (path, ti) :: l2)
    (hl2 : ∀ pr ∈ l2, pr.2 ≠ ti)
    (hnode : t.node ti = some node)
    (hb1 : path ≠ "/datum") (hb2 : path ≠ "/atom") (hb3 : path ≠ "/turf")
    (hb4 : path ≠ "/area") (hb5 : path ≠ "/obj") (hb6 : path ≠ "/mob")
    (hvar : assocGet "parent_type" node.vars = some tv)
    (hexpr : tv.value.expression = some e)
    (heval : e.simple_evaluate tv.value.location = .ok c)
    (hc : constantPath c = some s)
    (hlook : assocGet s t.types = some j) :
    ∃ node', (t.assign_parent_types).1.node ti = some node' ∧
      node'.parent_type = j ∧ stripPT node' = stripPT node := by
  obtain ⟨node', h1, h2, h3, _⟩ := apt_master t l1 l2 path ti node hsplit hl2 hnode
  refine ⟨node', h1, ?_, h3⟩
  rw [h2, apt_idx_eval t.types path node s tv.value.location [] hb1
    (apt_choose_override path node tv e c s hb2 hb3 hb4 hb5 hb6 hvar hexpr heval hc), hlook]

theorem c1_parent_type_override_witness :
    (exTreeA.types = [("/atom", 2), ("/atom/movable", 3), ("/baz", 7), ("/datum", 1),
      ("/foo", 5)] ++ ("/foo/bar", 6) :: [("/mob", 4)] ∧
     (∀ pr ∈ [("/mob", 4)], (pr : String × Nat).2 ≠ 6) ∧
     exTreeA.node 6 = some exNodeBar ∧
     assocGet "parent_type" exNodeBar.vars = some exVarBar ∧
     exVarBar.value.expression = some exExprBar ∧
     exExprBar.simple_evaluate exVarBar.value.location = .ok (Constant.str "/atom") ∧
     constantPath (Constant.str "/atom") = some "/atom" ∧
     assocGet "/atom" exTreeA.types = some 2) ∧
    ∃ node', (exTreeA.assign_parent_types).1.node 6 = some node' ∧
      node'.parent_type = 2 ∧ stripPT node' = stripPT exNodeBar :=
  ⟨⟨by rfl, by decide, by rfl, by rfl, by rfl, by rfl, by rfl, by rfl⟩,
   c1_parent_type_override exTreeA
     [("/atom", 2), ("/atom/movable", 3), ("/baz", 7), ("/datum", 1), ("/foo", 5)]
     [("/mob", 4)] "/foo/bar" 6 exNodeBar exVarBar exExprBar (Constant.str "/atom")
     "/atom" 2
     (by rfl) (by decide) (by rfl) (by decide) (by decide) (by decide) (by decide)
     (by decide) (by decide) (by rfl) (by rfl) (by rfl) (by rfl) (by rfl)⟩

-- ----------------------------------------------------------------------------
-- C3

/-- C3 counterexample: `/baz` declares `parent_type` (a variable registered
at location 19) naming the unregistered path `/nowhere`; the resulting "bad
parent type" error is reported at the variable's location 19, not at the
type's own location 18 — so "an error is reported at the type's own
location" fails as stated. -/
theorem c3_counterexample :
    exTreeA.assign_parent_types.2 =
      [⟨19, "bad parent type for /baz: /nowhere"⟩] ∧
    ((exTreeA.node 7).map (fun n => (n.path, n.location))) = some ("/baz", 18) ∧
    (19 : Nat) ≠ 18 :=
  ⟨by rfl, by rfl, by decide⟩

/-- C3 (amended): whenever the parent path string computed during
finalization for a type other than `/datum` (whose parent is the root
directly, with no lookup) is not a key of the path index, a "bad parent
type" error is reported — at the type's own location when the type's path
is one of the hardcoded built-ins (`/atom`, `/turf`, `/area`, `/obj`,
`/mob`) or when the type declares no `parent_type` variable, and at that
variable's value location when the path is not a built-in and such a
variable exists — and the type's semantic parent is set to the root node;
the type is still assigned a parent (finalization does not abort). -/
theorem c3_bad_parent_root_fallback (t : ObjectTree) (l1 l2 : List (String × Nat))
    (path : String) (ti : Nat) (node : Type') (s : String) (loc : Location)
    (es : List DMError)
    (hsplit : t.types = l1 ++ (path, ti) :: l2)
    (hl2 : ∀ pr ∈ l2, pr.2 ≠ ti)
    (hnode : t.node ti = some node)
    (hpath : path ≠ "/datum")
    (hch : apt_choose path node = (s, loc, es))
    (hlook : assocGet s t.types = none) :
    ∃ node', (t.assign_parent_types).1.node ti = some node' ∧
      node'.parent_type = 0 ∧ node'.parent_typeOpt = some 0 ∧
      (⟨loc, "bad parent type for " ++ path ++ ": " ++ s⟩ : DMError) ∈
        (t.assign_parent_types).2 ∧
      ((path = "/atom" ∨ path = "/turf" ∨ path = "/area" ∨ path = "/obj" ∨
          path = "/mob" ∨ assocGet "parent_type" node.vars = none) →
        loc = node.location) ∧
      (∀ tv, path ≠ "/atom" → path ≠ "/turf" → path ≠ "/area" → path ≠ "/obj" →
        path ≠ "/mob" → assocGet "parent_type" node.vars = some tv →
        loc = tv.value.location) := by
  obtain ⟨node', h1, h2, h3, h4⟩ := apt_master t l1 l2 path ti node hsplit hl2 hnode
  have hidx : apt_idx t.types path node =
      (0, es ++ [⟨loc, "bad parent type for " ++ path ++ ": " ++ s⟩]) := by
    rw [apt_idx_eval t.types path node s loc es hpath hch, hlook]
  have hpt : node'.parent_type = 0 := by rw [h2, hidx]
  refine ⟨node', h1, hpt, ?_, ?_, ?_, ?_⟩
  · unfold Type'.parent_typeOpt
    rw [hpt, if_neg (show ¬((0 : Nat) = BAD_NODE_INDEX) by decide)]
  · apply h4
    rw [hidx]
    exact List.mem_append.mpr (Or.inr (by simp))
  · intro hcase
    have hloc : (apt_choose path node).2.1 = node.location := by
      rcases hcase with h | h | h | h | h | h
      · exact apt_choose_loc_builtin path node (Or.inl h)
      · exact apt_choose_loc_builtin path node (Or.inr (Or.inl h))
      · exact apt_choose_loc_builtin path node (Or.inr (Or.inr (Or.inl h)))
      · exact apt_choose_loc_builtin path node (Or.inr (Or.inr (Or.inr (Or.inl h))))
      · exact apt_choose_loc_builtin path node (Or.inr (Or.inr (Or.inr (Or.inr h))))
      · exact apt_choose_loc_novar path node h
    rw [hch] at hloc
    exact hloc
  · intro tv hb2 hb3 hb4 hb5 hb6 hvar
    have hloc := apt_choose_loc_var path node tv hb2 hb3 hb4 hb5 hb6 hvar
    rw [hch] at hloc
    exact hloc

theorem c3_bad_parent_root_fallback_witness :
    (exTreeA.types = [("/atom", 2), ("/atom/movable", 3)] ++
      ("/baz", 7) :: [("/datum", 1), ("/foo", 5), ("/foo/bar", 6), ("/mob", 4)] ∧
     (∀ pr ∈ [("/datum", 1), ("/foo", 5), ("/foo/bar", 6), ("/mob", 4)],
       (pr : String × Nat).2 ≠ 7) ∧
     exTreeA.node 7 = some exNodeBaz ∧
     apt_choose "/baz" exNodeBaz = ("/nowhere", 19, []) ∧
     assocGet "/nowhere" exTreeA.types = none) ∧
    ∃ node', (exTreeA.assign_parent_types).1.node 7 = some node' ∧
      node'.parent_type = 0 ∧ node'.parent_typeOpt = some 0 ∧
      (⟨19, "bad parent type for /baz: /nowhere"⟩ : DMError) ∈
        (exTreeA.assign_parent_types).2 ∧
      (("/baz" = "/atom" ∨ "/baz" = "/turf" ∨ "/baz" = "/area" ∨ "/baz" = "/obj" ∨
          "/baz" = "/mob" ∨ assocGet "parent_type" exNodeBaz.vars = none) →
        (19 : Location) = exNodeBaz.location) ∧
      (∀ tv, "/baz" ≠ "/atom" → "/baz" ≠ "/turf" → "/baz" ≠ "/area" →
        "/baz" ≠ "/obj" → "/baz" ≠ "/mob" →
        assocGet "parent_type" exNodeBaz.vars = some tv →
        (19 : Location) = tv.value.location) :=
  ⟨⟨by rfl, by decide, by rfl, by rfl, by rfl⟩,
   c3_bad_parent_root_fallback exTreeA [("/atom", 2), ("/atom/movable", 3)]
     [("/datum", 1), ("/foo", 5), ("/foo/bar", 6), ("/mob", 4)] "/baz" 7 exNodeBaz
     "/nowhere" 19 []
     (by rfl) (by decide) (by rfl) (by decide) (by rfl) (by rfl)⟩

end ObjTree
